import Mathlib

/-!
Verification of the region data-loading and layer-composition pipeline of the
vector-risk dashboard.  The definitions below are shallow embeddings of the
JavaScript source (src/js/app.js, src/js/mapManager.js, src/unnamed/part_002,
src/unnamed/part_005, src/unnamed/part_006).  Numbers are modelled as rationals
(all values flowing through the pipeline are finite JSON numbers), JavaScript
null/undefined as Option, and dates as civil calendar dates.  JavaScript Date
objects built from ISO strings are modelled in UTC (the code only builds Dates
from ISO `YYYY-MM-DD` / `YYYY-MM-DDTHH:MM:SSZ` strings).
-/

set_option maxRecDepth 8000

namespace VectorRisk

/-! ## Calendar model

JavaScript `Date` values built from date strings, compared by their epoch
timestambs, are modelled by civil dates (year, month, day) ordered through an
order-preserving key.  `dateKey` embeds valid civil dates into naturals
order-isomorphically (months have at most 31 days, a year at most 372 key
slots), so every comparison the source performs on `Date` objects is faithfully
mirrored on keys. -/

/-- Civil calendar date: year, month (1-12), day (1-31). -/
structure CivilDate where
  y : ℕ
  m : ℕ
  d : ℕ
deriving DecidableEq, Repr

/-- Gregorian leap-year rule, as implemented by JavaScript Date. -/
def isLeap (y : ℕ) : Bool :=
  (y % 4 == 0 && y % 100 != 0) || y % 400 == 0

/-- Number of days in a month of a given year. -/
def daysInMonth (y m : ℕ) : ℕ :=
  if m = 2 then (if isLeap y then 29 else 28)
  else if m = 4 ∨ m = 6 ∨ m = 9 ∨ m = 11 then 30
  else 31

/-- A civil date is valid when its month and day are in range. -/
def CivilDate.Valid : CivilDate → Prop
  | ⟨y, m, d⟩ => 1 ≤ m ∧ m ≤ 12 ∧ 1 ≤ d ∧ d ≤ daysInMonth y m

instance (c : CivilDate) : Decidable c.Valid := by
  obtain ⟨y, m, d⟩ := c
  unfold CivilDate.Valid
  infer_instance

/-- Order-preserving key of a civil date (for valid dates this agrees with the
chronological order of the corresponding JavaScript timestamps). -/
def dateKey : CivilDate → ℕ
  | ⟨y, m, d⟩ => y * 372 + (m - 1) * 31 + (d - 1)

/-- The calendar day after a date, with month and year rollover.  This models
`cursor.setDate(cursor.getDate() + 1)` on a UTC-midnight Date. -/
def nextDay : CivilDate → CivilDate
  | ⟨y, m, d⟩ =>
    if d < daysInMonth y m then ⟨y, m, d + 1⟩
    else if m < 12 then ⟨y, m + 1, 1⟩
    else ⟨y + 1, 1, 1⟩

theorem daysInMonth_pos (y m : ℕ) : 1 ≤ daysInMonth y m := by
  unfold daysInMonth
  split <;> [split <;> omega; split <;> omega]

theorem daysInMonth_le (y m : ℕ) : daysInMonth y m ≤ 31 := by
  unfold daysInMonth
  split <;> [split <;> omega; split <;> omega]

theorem nextDay_valid (c : CivilDate) (h : c.Valid) : (nextDay c).Valid := by
  obtain ⟨cy, cm, cd⟩ := c
  obtain ⟨h1, h2, h3, h4⟩ := h
  have hp1 := daysInMonth_pos cy (cm + 1)
  have hp2 := daysInMonth_pos (cy + 1) 1
  simp only [nextDay]
  split_ifs <;> simp only [CivilDate.Valid] <;>
    refine ⟨by omega, by omega, by omega, by omega⟩

theorem dateKey_lt_nextDay (c : CivilDate) (h : c.Valid) :
    dateKey c < dateKey (nextDay c) := by
  obtain ⟨cy, cm, cd⟩ := c
  obtain ⟨h1, h2, h3, h4⟩ := h
  have h31 := daysInMonth_le cy cm
  simp only [nextDay]
  split_ifs <;> simp only [dateKey] <;> omega

/-- Between a valid date and its `nextDay` there is no valid date: `nextDay` is
the successor in key order. -/
theorem nextDay_le_of_lt (c e : CivilDate) (hc : c.Valid) (he : e.Valid)
    (hlt : dateKey c < dateKey e) : dateKey (nextDay c) ≤ dateKey e := by
  obtain ⟨cy, cm, cd⟩ := c
  obtain ⟨ey, em, ed⟩ := e
  obtain ⟨hc1, hc2, hc3, hc4⟩ := hc
  obtain ⟨he1, he2, he3, he4⟩ := he
  have hcm := daysInMonth_le cy cm
  have hem := daysInMonth_le ey em
  simp only [dateKey] at hlt
  simp only [nextDay]
  split_ifs with hd hm12
  · simp only [dateKey]; omega
  · -- month rollover: cd = daysInMonth cy cm
    simp only [dateKey]
    rcases Nat.lt_trichotomy ey cy with hy | hy | hy
    · omega
    · subst hy
      rcases Nat.lt_trichotomy em cm with hmm | hmm | hmm
      · omega
      · subst hmm; omega
      · omega
    · omega
  · -- year rollover: cm = 12, cd = daysInMonth cy 12
    simp only [dateKey]
    rcases Nat.lt_trichotomy ey cy with hy | hy | hy
    · omega
    · subst hy
      rcases Nat.lt_trichotomy em cm with hmm | hmm | hmm
      · omega
      · subst hmm; omega
      · omega
    · omega

theorem dateKey_injective_on_valid (c e : CivilDate) (hc : c.Valid) (he : e.Valid)
    (h : dateKey c = dateKey e) : c = e := by
  obtain ⟨cy, cm, cd⟩ := c
  obtain ⟨ey, em, ed⟩ := e
  obtain ⟨hc1, hc2, hc3, hc4⟩ := hc
  obtain ⟨he1, he2, he3, he4⟩ := he
  have hcm := daysInMonth_le cy cm
  have hem := daysInMonth_le ey em
  simp only [dateKey] at h
  have h1 : cy = ey := by omega
  subst h1
  have h2 : cm = em := by omega
  subst h2
  have h3 : cd = ed := by omega
  subst h3
  rfl

/-! ### ISO date strings -/

/-- Decimal digit character for `n % 10`. -/
def digitChar (n : ℕ) : Char := Char.ofNat (48 + n % 10)

/-- Fixed-width 4-digit decimal rendering (the year field of toISOString). -/
def pad4 (n : ℕ) : String :=
  String.mk [digitChar (n / 1000), digitChar (n / 100), digitChar (n / 10), digitChar n]

/-- Fixed-width 2-digit decimal rendering (month/day fields of toISOString). -/
def pad2 (n : ℕ) : String :=
  String.mk [digitChar (n / 10), digitChar n]

/-- ISO `YYYY-MM-DD` rendering of a civil date, as produced by
`date.toISOString().split('T')[0]` for a UTC-midnight date with year
in 0-9999. -/
def isoOfDate (c : CivilDate) : String :=
  pad4 c.y ++ "-" ++ pad2 c.m ++ "-" ++ pad2 c.d

/-- Numeric value of a decimal digit character, if it is one (code points
48-57). -/
def digitVal (c : Char) : Option ℕ :=
  if 48 ≤ c.toNat ∧ c.toNat ≤ 57 then some (c.toNat - 48) else none

/-- Build a civil date after range-checking month and day, as the Date
constructor validates date-only ISO strings. -/
def mkValidDate (yy mm dd : ℕ) : Option CivilDate :=
  if 1 ≤ mm ∧ mm ≤ 12 ∧ 1 ≤ dd ∧ dd ≤ daysInMonth yy mm then some ⟨yy, mm, dd⟩
  else none

/-- Parse an ISO `YYYY-MM-DD` string as `new Date(s)` does, yielding the civil
date of the UTC midnight it denotes, or none when the result would be an
Invalid Date (bad shape, month out of 1-12, day out of range for the month). -/
def parseIsoDate (s : String) : Option CivilDate :=
  match s.data with
  | [y1, y2, y3, y4, s1, m1, m2, s2, d1, d2] =>
    if s1 = '-' ∧ s2 = '-' then
      match digitVal y1, digitVal y2, digitVal y3, digitVal y4,
            digitVal m1, digitVal m2, digitVal d1, digitVal d2 with
      | some a, some b, some c, some d, some e, some f, some g, some h =>
        mkValidDate (1000 * a + 100 * b + 10 * c + d) (10 * e + f) (10 * g + h)
      | _, _, _, _, _, _, _, _ => none
    else none
  | _ => none

theorem mkValidDate_valid (yy mm dd : ℕ) (c : CivilDate)
    (h : mkValidDate yy mm dd = some c) : c.Valid := by
  unfold mkValidDate at h
  split at h
  case isTrue hcond =>
    simp only [Option.some.injEq] at h
    subst h
    exact hcond
  case isFalse => exact absurd h (by simp)

theorem parseIsoDate_valid (s : String) (c : CivilDate)
    (h : parseIsoDate s = some c) : c.Valid := by
  unfold parseIsoDate at h
  split at h
  case h_1 =>
    split at h
    case isTrue =>
      split at h
      case h_1 => exact mkValidDate_valid _ _ _ _ h
      case h_2 => exact absurd h (by simp)
    case isFalse => exact absurd h (by simp)
  case h_2 => exact absurd h (by simp)

theorem digitVal_le (c : Char) (k : ℕ) (h : digitVal c = some k) : k ≤ 9 := by
  unfold digitVal at h
  split at h
  case isTrue hc => simp only [Option.some.injEq] at h; omega
  case isFalse => exact absurd h (by simp)

theorem digitVal_eq_char (c : Char) (k : ℕ) (h : digitVal c = some k) :
    c = digitChar k := by
  have hk := digitVal_le c k h
  unfold digitVal at h
  split at h
  case isTrue hc =>
    simp only [Option.some.injEq] at h
    have htn : c.toNat = 48 + k := by omega
    have := Char.ofNat_toNat c
    rw [htn] at this
    rw [← this]
    unfold digitChar
    rw [Nat.mod_eq_of_lt (by omega)]
  case isFalse => exact absurd h (by simp)

/-- Rendering a parsed ISO date reproduces the original string: `parseIsoDate`
only succeeds on canonical zero-padded `YYYY-MM-DD` strings. -/
theorem isoOfDate_parseIsoDate (s : String) (c : CivilDate)
    (h : parseIsoDate s = some c) : isoOfDate c = s := by
  unfold parseIsoDate at h
  split at h
  case h_1 y1 y2 y3 y4 s1 m1 m2 s2 d1 d2 hdata =>
    split at h
    case isTrue hdash =>
      split at h
      case h_1 a b cc d e f g hh ha hb hc hd he hf hg hhh =>
        have ha9 := digitVal_le _ _ ha
        have hb9 := digitVal_le _ _ hb
        have hc9 := digitVal_le _ _ hc
        have hd9 := digitVal_le _ _ hd
        have he9 := digitVal_le _ _ he
        have hf9 := digitVal_le _ _ hf
        have hg9 := digitVal_le _ _ hg
        have hh9 := digitVal_le _ _ hhh
        unfold mkValidDate at h
        split at h
        case isTrue hcond =>
          simp only [Option.some.injEq] at h
          subst h
          have hs : s = String.mk [y1, y2, y3, y4, s1, m1, m2, s2, d1, d2] := by
            conv_lhs => rw [← show String.mk s.data = s from rfl]
            rw [hdata]
          rw [hs, hdash.1, hdash.2]
          unfold isoOfDate pad4 pad2
          rw [digitVal_eq_char _ _ ha, digitVal_eq_char _ _ hb,
              digitVal_eq_char _ _ hc, digitVal_eq_char _ _ hd,
              digitVal_eq_char _ _ he, digitVal_eq_char _ _ hf,
              digitVal_eq_char _ _ hg, digitVal_eq_char _ _ hhh]
          simp only
          have e1 : (1000 * a + 100 * b + 10 * cc + d) / 1000 % 10 = a % 10 := by omega
          have e2 : (1000 * a + 100 * b + 10 * cc + d) / 100 % 10 = b % 10 := by omega
          have e3 : (1000 * a + 100 * b + 10 * cc + d) / 10 % 10 = cc % 10 := by omega
          have e4 : (1000 * a + 100 * b + 10 * cc + d) % 10 = d % 10 := by omega
          have e5 : (10 * e + f) / 10 % 10 = e % 10 := by omega
          have e6 : (10 * e + f) % 10 = f % 10 := by omega
          have e7 : (10 * g + hh) / 10 % 10 = g % 10 := by omega
          have e8 : (10 * g + hh) % 10 = hh % 10 := by omega
          unfold digitChar
          rw [e1, e2, e3, e4, e5, e6, e7, e8]
          rfl
        case isFalse => exact absurd h (by simp)
      case h_2 => exact absurd h (by simp)
    case isFalse => exact absurd h (by simp)
  case h_2 => exact absurd h (by simp)

theorem parseIsoDate_y_le (s : String) (c : CivilDate)
    (h : parseIsoDate s = some c) : c.y ≤ 9999 := by
  unfold parseIsoDate at h
  split at h
  case h_1 =>
    split at h
    case isTrue =>
      split at h
      case h_1 a b cc d e f g hh ha hb hc hd he hf hg hhh =>
        have ha9 := digitVal_le _ _ ha
        have hb9 := digitVal_le _ _ hb
        have hc9 := digitVal_le _ _ hc
        have hd9 := digitVal_le _ _ hd
        unfold mkValidDate at h
        split at h
        case isTrue =>
          simp only [Option.some.injEq] at h
          subst h
          simp only
          omega
        case isFalse => exact absurd h (by simp)
      case h_2 => exact absurd h (by simp)
    case isFalse => exact absurd h (by simp)
  case h_2 => exact absurd h (by simp)

/-- Validity and a 4-digit year make ISO rendering parse back to the date. -/
theorem parseIsoDate_isoOfDate (c : CivilDate) (hv : c.Valid) (hy : c.y ≤ 9999) :
    parseIsoDate (isoOfDate c) = some c := by
  obtain ⟨cy, cm, cd⟩ := c
  obtain ⟨h1, h2, h3, h4⟩ := hv
  have h31 := daysInMonth_le cy cm
  simp only at hy
  unfold isoOfDate pad4 pad2
  simp only
  unfold parseIsoDate
  rw [show (String.mk [digitChar (cy / 1000), digitChar (cy / 100),
        digitChar (cy / 10), digitChar cy] ++ "-" ++
        String.mk [digitChar (cm / 10), digitChar cm] ++ "-" ++
        String.mk [digitChar (cd / 10), digitChar cd]).data =
      [digitChar (cy / 1000), digitChar (cy / 100), digitChar (cy / 10),
       digitChar cy, '-', digitChar (cm / 10), digitChar cm, '-',
       digitChar (cd / 10), digitChar cd] by
    simp [String.data_append]]
  simp only [reduceIte, and_self]
  have hdv : ∀ n : ℕ, digitVal (digitChar n) = some (n % 10) := by
    intro n
    have hlt : n % 10 < 10 := Nat.mod_lt _ (by norm_num)
    unfold digitChar digitVal
    generalize n % 10 = r at *
    interval_cases r <;> decide
  simp only [hdv]
  unfold mkValidDate
  have ey : 1000 * (cy / 1000 % 10) + 100 * (cy / 100 % 10) + 10 * (cy / 10 % 10)
      + cy % 10 = cy := by omega
  have em : 10 * (cm / 10 % 10) + cm % 10 = cm := by omega
  have ed : 10 * (cd / 10 % 10) + cd % 10 = cd := by omega
  rw [ey, em, ed]
  rw [if_pos ⟨h1, h2, h3, h4⟩]

/-! ## normalizeDateRange and buildDateArray (src/js/app.js lines 19-53)

`normalizeDateRange` accepts a string (a single date), an object with optional
`startDate`/`endDate` string fields, or a nullish value.  JavaScript
truthiness on the string fields treats the empty string, null and undefined
as absent.  The `new Date(a) > new Date(b)` comparison used for the swap is
false whenever either side is an Invalid Date. -/

/-- Input shapes accepted by normalizeDateRange: a plain string, an object
with optional startDate/endDate fields, or null/undefined. -/
inductive JsDateInput
  | str (s : String)
  | obj (startDate endDate : Option String)
  | nullish
deriving DecidableEq, Repr

/-- JavaScript truthiness of an optional string field (undefined, null and
the empty string are falsy). -/
def jsTruthy : Option String → Bool
  | none => false
  | some s => s ≠ ""

/-- JavaScript `a || b` on optional string values. -/
def jsOrStr (a b : Option String) : Option String :=
  if jsTruthy a then a else b

/-- The expression `x.startDate || x.endDate || today` (and its mirror image)
from normalizeDateRange: first truthy of the two fields, else today. -/
def pickField (a b : Option String) (today : String) : String :=
  match jsOrStr a (jsOrStr b (some today)) with
  | some s => s
  | none => today

/-- Shallow embedding of normalizeDateRange (app.js lines 19-35).  `today`
stands for `new Date().toISOString().split('T')[0]`.  The result pair is
(startDate, endDate). -/
def normalizeDateRange (today : String) : JsDateInput → String × String
  | .str s => (s, s)
  | .nullish => (today, today)
  | .obj sd ed =>
    let startDate := pickField sd ed today
    let endDate := pickField ed sd today
    match parseIsoDate startDate, parseIsoDate endDate with
    | some a, some b =>
      if dateKey b < dateKey a then (endDate, startDate) else (startDate, endDate)
    | _, _ => (startDate, endDate)

/-- Valid civil dates (the subtype on which the date-enumeration loop runs;
`parseIsoDate` only produces such dates). -/
def VDate : Type := { c : CivilDate // c.Valid }

/-- Successor on valid dates. -/
def vNext (c : VDate) : VDate := ⟨nextDay c.1, nextDay_valid c.1 c.2⟩

/-- One iteration bound of the `while (cursor <= last)` loop of
buildDateArray (app.js lines 44-52): push the ISO day, advance the cursor by
one calendar day; the comparison is the JavaScript timestamp order, i.e. the
key order.  The structural fuel argument is the loop variant
`dateKey last + 1 - dateKey cursor`; since the key strictly increases every
iteration, running with at least that much fuel is the `while` loop. -/
def buildDaysFuel : ℕ → VDate → CivilDate → List String
  | 0, _, _ => []
  | fuel + 1, cursor, last =>
    if dateKey cursor.1 ≤ dateKey last then
      isoOfDate cursor.1 :: buildDaysFuel fuel (vNext cursor) last
    else []

/-- The `while (cursor <= last)` loop, started with exactly enough fuel. -/
def buildDays (cursor : VDate) (last : CivilDate) : List String :=
  buildDaysFuel (dateKey last + 1 - dateKey cursor.1) cursor last

/-- Parse an ISO date string into the valid-date subtype (`parseIsoDate`
range-checks, so the validity test never fails on a parsed date). -/
def parseValidDate (s : String) : Option VDate :=
  match parseIsoDate s with
  | some c => if h : c.Valid then some ⟨c, h⟩ else none
  | none => none

theorem parseValidDate_some (s : String) (c : CivilDate)
    (h : parseIsoDate s = some c) :
    parseValidDate s = some ⟨c, parseIsoDate_valid s c h⟩ := by
  unfold parseValidDate
  rw [h]
  dsimp only
  rw [dif_pos (parseIsoDate_valid s c h)]

/-- Shallow embedding of buildDateArray (app.js lines 42-53): normalize the
range, then enumerate the days.  When either endpoint fails to parse the
`cursor <= last` comparison is false (NaN) and the loop never runs. -/
def buildDateArray (today : String) (range : JsDateInput) : List String :=
  match normalizeDateRange today range with
  | (s, e) =>
    match parseValidDate s, parseIsoDate e with
    | some a, some b => buildDays a b
    | _, _ => []

/-! ## Observation filtering (src/js/app.js lines 849-907)

`loadMosquitoObservations` filters a GeoJSON FeatureCollection by species
aliases and by a date window.  Feature properties are modelled as association
lists from field names to strings; `new Date(value)` on a feature's date
string is modelled by `parseJsDateTime`, which covers the ISO forms the
upstream data uses (`YYYY-MM-DD` and `YYYY-MM-DDTHH:MM:SSZ`); any other
string is an Invalid Date.  Timestamps are modelled order-faithfully as
`dateKey * 86400000 + millisecond-of-day`. -/

/-- Parse a feature date string the way `new Date(value)` does on the ISO
grammar used by the observation payloads:  a date-only string denotes UTC
midnight of that day, a `THH:MM:SSZ` suffix adds a millisecond-of-day. -/
def parseJsDateTime (s : String) : Option (CivilDate × ℕ) :=
  match s.data with
  | [y1, y2, y3, y4, sa, m1, m2, sb, d1, d2] =>
    (parseIsoDate (String.mk [y1, y2, y3, y4, sa, m1, m2, sb, d1, d2])).map
      (fun c => (c, 0))
  | [y1, y2, y3, y4, sa, m1, m2, sb, d1, d2, 'T',
     h1, h2, ':', i1, i2, ':', e1, e2, 'Z'] =>
    match parseIsoDate (String.mk [y1, y2, y3, y4, sa, m1, m2, sb, d1, d2]),
          digitVal h1, digitVal h2, digitVal i1, digitVal i2,
          digitVal e1, digitVal e2 with
    | some c, some a, some b, some d, some e, some f, some g =>
      if 10 * a + b ≤ 23 ∧ 10 * d + e ≤ 59 ∧ 10 * f + g ≤ 59 then
        some (c, ((10 * a + b) * 3600 + (10 * d + e) * 60 + (10 * f + g)) * 1000)
      else none
    | _, _, _, _, _, _, _ => none
  | _ => none

/-- Epoch-order-faithful timestamp of a civil date plus millisecond-of-day. -/
def tsOf (c : CivilDate) (ms : ℕ) : ℕ := dateKey c * 86400000 + ms

/-- Feature property bag (a GeoJSON `properties` object restricted to string
values; an absent key is an absent property). -/
abbrev ObsProps : Type := List (String × String)

/-- Property lookup, `props[key]`. -/
def getProp (props : ObsProps) (k : String) : Option String :=
  (List.find? (fun p => p.1 = k) props).map (fun p => p.2)

/-- The `candidates.map(key => props[key]).find(Boolean)` idiom: first
candidate key whose value is truthy (present and nonempty). -/
def firstTruthy (props : ObsProps) : List String → Option String
  | [] => none
  | k :: rest =>
    match getProp props k with
    | some v => if v = "" then firstTruthy props rest else some v
    | none => firstTruthy props rest

/-- CONFIG.observationsSource.datePropertyCandidates (src/unnamed/part_002). -/
def datePropertyCandidates : List String :=
  ["event_date", "observed_at", "created_at", "timestamp"]

/-- CONFIG.observationsSource.speciesPropertyCandidates
(src/unnamed/part_002). -/
def speciesPropertyCandidates : List String :=
  ["species", "taxon", "taxa", "taxon_name"]

/-- The static species alias table of loadMosquitoObservations (app.js lines
858-864); an unknown key falls back to itself as the only term. -/
def speciesAliases (k : String) : List String :=
  if k = "ae-albopictus" then ["aedes albopictus", "albopictus", "ae. albopictus"]
  else if k = "ae-aegypti" then ["aedes aegypti", "aegypti", "ae. aegypti"]
  else if k = "ae-japonicus" then ["aedes japonicus", "japonicus"]
  else if k = "ae-koreicus" then ["aedes koreicus", "koreicus"]
  else if k = "culex" then ["culex", "culex pipiens"]
  else [k]

/-- ASCII lowercasing, `value.toString().toLowerCase()`. -/
def lowerStr (s : String) : String := String.mk (s.data.map Char.toLower)

/-- The `isWithinRange` closure (app.js lines 875-879): the value must be
truthy, parse to a valid Date, and its timestamp must lie between the
timestamps of the UTC midnights of startDate and endDate. -/
def isWithinRange (startD endD : CivilDate) (v : Option String) : Bool :=
  match v with
  | none => false
  | some s =>
    if s = "" then false
    else
      match parseJsDateTime s with
      | none => false
      | some (c, ms) => tsOf startD 0 ≤ tsOf c ms ∧ tsOf c ms ≤ tsOf endD 0

/-- The `matchesSpecies` closure (app.js lines 881-886): first truthy species
property, lowercased, must contain one of the normalized alias terms as a
substring. -/
def matchesSpecies (terms : List String) (props : ObsProps) : Bool :=
  match firstTruthy props speciesPropertyCandidates with
  | none => false
  | some v => terms.any (fun t => decide (t.data <:+: (lowerStr v).data))

/-- Predicate of the `features.filter` call (app.js lines 888-893): the date
value is resolved through the candidate list with `props.date` and
`props.timestamp` as final fallbacks (`dateValue || props.date ||
props.timestamp`), and both the range test and the species test must pass. -/
def featureMatches (speciesKey : String) (startD endD : CivilDate)
    (props : ObsProps) : Bool :=
  let terms := (speciesAliases speciesKey).map lowerStr
  isWithinRange startD endD
      (firstTruthy props (datePropertyCandidates ++ ["date", "timestamp"])) &&
    matchesSpecies terms props

/-- Shallow embedding of the filtering step of loadMosquitoObservations:
keep exactly the features passing `featureMatches`. -/
def filterObservations (features : List ObsProps) (speciesKey : String)
    (startD endD : CivilDate) : List ObsProps :=
  features.filter (featureMatches speciesKey startD endD)

/-! ## Raster averaging (src/js/app.js lines 783-841, averageGeorasters)

A decoded GeoTIFF grid is `values[band][row][col]` with an optional no-data
sentinel; a cell holds a number or null/undefined (`Option ℚ`).  The `width`
and `height` metadata fields may be absent, in which case the code falls back
to the first band's shape (`base.height || firstBand.length`, with 0 falsy).
The imperative sums/counts accumulation is embedded per-cell: each cell's sum
and count are folds over the grid list, exactly the contributions the nested
loops add. -/

/-- Decoded raster grid: bands of rows of cells plus metadata. -/
structure Georaster where
  values : List (List (List (Option ℚ)))
  width : Option ℕ
  height : Option ℕ
  noDataValue : Option ℚ
deriving DecidableEq, Repr

/-- JavaScript `metadataField || fallback` with 0 falsy. -/
def jsOrDim : Option ℕ → ℕ → ℕ
  | some n, d => if n = 0 then d else n
  | none, d => d

/-- The per-grid skip test of the accumulation loop (app.js lines 803-805):
at least `bandCount` bands, and band 0 must be `height` rows whose first row
has `width` cells. -/
def passesDimCheck (bandCount height width : ℕ) (r : Georaster) : Bool :=
  decide (bandCount ≤ r.values.length) &&
    match r.values.head? with
    | none => false
    | some band0 =>
      (band0.length == height) &&
        match band0.head? with
        | none => false
        | some row0 => row0.length == width

/-- Cell lookup `raster.values[b][y][x]`; out-of-range indexing yields
undefined, i.e. none. -/
def cellAt (r : Georaster) (b y x : ℕ) : Option ℚ :=
  ((r.values[b]?.bind (fun band => band[y]?)).bind (fun row => row[x]?)).join

/-- Raw cell lookup, distinguishing an absent index (none) from a null cell
(some none). -/
def rawCellAt (r : Georaster) (b y x : ℕ) : Option (Option ℚ) :=
  (r.values[b]?.bind (fun band => band[y]?)).bind (fun row => row[x]?)

/-- A cell's contribution to the average: skipped when missing or equal to
the no-data sentinel (app.js lines 814-817). -/
def contribOf (noData : Option ℚ) (v : Option ℚ) : Option ℚ :=
  match v with
  | none => none
  | some x => if noData = some x then none else some x

/-- The sum accumulated at one cell over the grids that pass the dimension
check (the `sumRow[x] += val` fold). -/
def sumAt (gs : List Georaster) (p : Georaster → Bool) (noData : Option ℚ)
    (b y x : ℕ) : ℚ :=
  (gs.filter p).foldl
    (fun acc r =>
      match contribOf noData (cellAt r b y x) with
      | some v => acc + v
      | none => acc) 0

/-- The count accumulated at one cell (the `countRow[x] += 1` fold).  The
source stores counts in a Uint16Array (app.js lines 798-799), so each
increment wraps modulo 2^16. -/
def countAt (gs : List Georaster) (p : Georaster → Bool) (noData : Option ℚ)
    (b y x : ℕ) : ℕ :=
  (gs.filter p).foldl
    (fun acc r =>
      match contribOf noData (cellAt r b y x) with
      | some _ => (acc + 1) % 65536
      | none => acc) 0

/-- One output cell (app.js lines 824-838): sum divided by count when any
grid contributed, else the sentinel (or null when none is defined). -/
def averagedCell (gs : List Georaster) (p : Georaster → Bool)
    (noData : Option ℚ) (b y x : ℕ) : Option ℚ :=
  if 0 < countAt gs p noData b y x then
    some (sumAt gs p noData b y x / (countAt gs p noData b y x : ℚ))
  else noData

/-- Shallow embedding of averageGeorasters (app.js lines 783-841). -/
def averageGeorasters (gs : List Georaster) : Option Georaster :=
  match gs with
  | [] => none
  | base :: _ =>
    match base.values with
    | [] => none
    | firstBand :: _ =>
      match firstBand with
      | [] => none
      | row0 :: _ =>
        let bandCount := base.values.length
        let height := jsOrDim base.height firstBand.length
        let width := jsOrDim base.width row0.length
        if height = 0 ∨ width = 0 then none
        else
          some { base with
            values :=
              (List.range bandCount).map (fun b =>
                (List.range height).map (fun y =>
                  (List.range width).map (fun x =>
                    averagedCell gs (passesDimCheck bandCount height width)
                      base.noDataValue b y x))) }

/-! ## Spain municipality aggregation (src/js/app.js lines 472-517)

Each successfully fetched date contributes a JSON payload: a list of rows
with a `NATCODE` (stringified; absent or empty is skipped) and a
`ma_prob_mean` field (parsed with parseFloat; a non-numeric result is
skipped).  The per-code Map of sums and counts is embedded per code as two
folds over all rows of all fetched payloads. -/

/-- A municipality prediction row: `NATCODE?.toString()` and
`parseFloat(row.ma_prob_mean)` (none models NaN/missing). -/
structure MuniRow where
  natcode : Option String
  value : Option ℚ
deriving DecidableEq, Repr

/-- Validity filter of the aggregation loop (app.js lines 495-497): a row
contributes when its code is present and nonempty and its value is numeric. -/
def validRow (r : MuniRow) : Option (String × ℚ) :=
  match r.natcode, r.value with
  | some s, some v => if s = "" then none else some (s, v)
  | _, _ => none

/-- Sum accumulated for one code over all rows of all fetched payloads
(`current.sum += value`). -/
def sumForCode (payloads : List (List MuniRow)) (code : String) : ℚ :=
  payloads.foldl
    (fun acc rows =>
      rows.foldl
        (fun a r =>
          match validRow r with
          | some (s, v) => if s = code then a + v else a
          | none => a) acc) 0

/-- Count accumulated for one code (`current.count += 1`). -/
def countForCode (payloads : List (List MuniRow)) (code : String) : ℕ :=
  payloads.foldl
    (fun acc rows =>
      rows.foldl
        (fun a r =>
          match validRow r with
          | some (s, _) => if s = code then a + 1 else a
          | none => a) acc) 0

/-- The aggregated value reported for a code: `sum / count` when the code was
seen at least once, none when it never appears (no Map entry). -/
def aggValue (payloads : List (List MuniRow)) (code : String) : Option ℚ :=
  if 0 < countForCode payloads code then
    some (sumForCode payloads code / (countForCode payloads code : ℚ))
  else none

/-- The valid values a single payload carries for a code, in row order. -/
def rowsForCode (rows : List MuniRow) (code : String) : List ℚ :=
  rows.filterMap
    (fun r =>
      match validRow r with
      | some (s, v) => if s = code then some v else none
      | none => none)

/-! ## Date-range load outcomes (src/js/app.js lines 472-517 and 704-724)

Spain fetches all dates with `Promise.allSettled`: a rejected promise or a
non-ok response is skipped with a warning.  Barcelona fetches sequentially in
a loop inside one try block: a non-ok response is skipped with a warning, but
a rejected fetch (network error) or a raster parse failure throws out of the
loop and is handled by the outer catch, aborting the whole range. -/

/-- Result of one per-date fetch in the Spain municipality path. -/
inductive SpainFetch
  | failed
  | ok (rows : List MuniRow)
deriving DecidableEq

/-- Payloads of the dates that survive the allSettled filter. -/
def spainSurvivors (fs : List SpainFetch) : List (List MuniRow) :=
  fs.filterMap
    (fun f =>
      match f with
      | .failed => none
      | .ok rows => some rows)

/-- Whether any fetched payload carries a valid row (the aggregated map, and
hence `aggregatedArray`, is nonempty exactly in this case). -/
def hasValidRow (payloads : List (List MuniRow)) : Bool :=
  payloads.any (fun rows => rows.any (fun r => (validRow r).isSome))

/-- Terminal outcome of loadSpainMosquitoAlertData for a date range: either
the user-visible "No municipality predictions available" message and an early
return (no layer), or the choropleth built from the surviving payloads. -/
inductive SpainOutcome
  | noData
  | layer (payloads : List (List MuniRow))
deriving DecidableEq

/-- Shallow embedding of the Spain range-load control flow (app.js lines
472-517): fetch, skip failures, aggregate, bail out when the aggregate is
empty. -/
def spainOutcome (fs : List SpainFetch) : SpainOutcome :=
  let ps := spainSurvivors fs
  if hasValidRow ps then .layer ps else .noData

/-- Result of one per-date fetch in the Barcelona raster path.  `netError`
covers a rejected fetch or a parseGeoraster failure (both throw out of the
loop); `httpError` is a non-ok response (skipped with a warning). -/
inductive BcnFetch
  | netError
  | httpError
  | ok (g : Georaster)
deriving DecidableEq

/-- The sequential fetch loop of loadBarcelonaMosquitoAlertData (app.js lines
709-720): collect parsed rasters, skip non-ok dates, abort on a thrown
error. -/
def bcnCollect : List BcnFetch → Option (List Georaster)
  | [] => some []
  | .netError :: _ => none
  | .httpError :: rest => bcnCollect rest
  | .ok g :: rest => (bcnCollect rest).map (fun gs => g :: gs)

/-- Terminal outcome of loadBarcelonaMosquitoAlertData: the catch-block error
message, or a raster layer built by averaging the collected grids. -/
inductive BcnOutcome
  | errorMessage
  | layer (gs : List Georaster)
deriving DecidableEq

/-- Shallow embedding of the Barcelona range-load control flow (app.js lines
682-775): an exception or an empty collection reaches the catch/throw paths;
otherwise the layer is built from the collected rasters (via
averageGeorasters). -/
def bcnOutcome (fs : List BcnFetch) : BcnOutcome :=
  match bcnCollect fs with
  | none => .errorMessage
  | some [] => .errorMessage
  | some gs => .layer gs

/-! ## Overlay state manager (src/js/mapManager.js lines 201-256 and 306-321)

The observation overlay bookkeeping: `layers.observations` is the handle,
the Mapbox backend additionally owns a named source and layer, the Leaflet
backend attaches the created layer object to the map when visible.  Layer
objects are identified by naturals.  `addObservationLayer` is modelled in
its style-loaded path (the not-yet-loaded path re-invokes the same function
from the load event). -/

/-- Observation-overlay-relevant state of the MapManager instance. -/
structure OverlayState where
  leafletLive : Bool
  mbLive : Bool
  mbObsSource : Option ℕ
  mbObsLayer : Option ℕ
  leafletObsAttached : List ℕ
  obsHandle : Option ℕ
deriving DecidableEq, Repr

/-- Shallow embedding of removeObservationLayer (mapManager.js lines
306-321): drop the Mapbox observation layer and source if a Mapbox map is
live, detach the handled Leaflet layer if a Leaflet map is live, then clear
the handle. -/
def removeObservationLayer (s : OverlayState) : OverlayState :=
  let s1 :=
    if s.mbLive then { s with mbObsLayer := none, mbObsSource := none } else s
  let s2 :=
    if s1.obsHandle.isSome ∧ s1.leafletLive then
      { s1 with
        leafletObsAttached :=
          s1.leafletObsAttached.filter (fun x => ¬ s1.obsHandle = some x) }
    else s1
  { s2 with obsHandle := none }

/-- Shallow embedding of addObservationLayer (mapManager.js lines 201-256) in
the style-loaded case: always remove first, then attach on whichever backend
is live (`id` identifies the new layer/source data). -/
def addObservationLayer (id : ℕ) (visible : Bool) (s : OverlayState) :
    OverlayState :=
  let s1 := removeObservationLayer s
  if s1.mbLive then
    { s1 with mbObsSource := some id, mbObsLayer := some id, obsHandle := some id }
  else if s1.leafletLive then
    { s1 with
      obsHandle := some id,
      leafletObsAttached :=
        if visible then id :: s1.leafletObsAttached else s1.leafletObsAttached }
  else s1

/-- The observation layers currently active (attached Leaflet layers plus the
Mapbox observation layer, if any). -/
def activeObs (s : OverlayState) : List ℕ :=
  s.leafletObsAttached ++
    (match s.mbObsLayer with
     | some l => [l]
     | none => [])

/-- Bookkeeping invariant: every active observation layer (either backend) is
the one referenced by the handle, so `removeObservationLayer` can always
detach everything; layers attached to a torn-down backend do not exist (they
die with the native map instance). -/
def ObsInv (s : OverlayState) : Prop :=
  (∀ x ∈ s.leafletObsAttached, s.obsHandle = some x) ∧
    s.leafletObsAttached.length ≤ 1 ∧
    (∀ l, s.mbObsLayer = some l → s.obsHandle = some l) ∧
    (∀ l, s.mbObsSource = some l → s.obsHandle = some l) ∧
    (s.leafletLive = false → s.leafletObsAttached = []) ∧
    (s.mbLive = false → s.mbObsLayer = none ∧ s.mbObsSource = none)

/-! ## Backend lifecycle (src/js/app.js lines 519-566 and 687-696,
src/js/mapManager.js lines 23-49, src/unnamed/part_005 lines 1234-1246)

Which native map instances are live: the Leaflet map (`mapManager.map`) and
the Mapbox GL map (`mapManager.mbMap`).  Each orchestrator entry point
tears down the other backend's instance before constructing its own. -/

/-- Which backend instances are currently constructed and not torn down. -/
structure BackendState where
  leaflet : Bool
  mb : Bool
deriving DecidableEq, Repr

/-- MapManager.initMap (mapManager.js lines 23-49): removes both existing
instances, then constructs a Leaflet map. -/
def initMapState (_ : BackendState) : BackendState :=
  { leaflet := true, mb := false }

/-- Orchestrator transitions that touch the map backends. -/
inductive OrchestratorOp
  /-- loadSpainMosquitoAlertData (app.js 519-566): when Mapbox GL and a token
  are available and the aggregate is nonempty, remove the Leaflet map and
  construct a Mapbox map; otherwise the map backends are left untouched
  (error message or fallback stats only). -/
  | loadSpainMuni (mapboxAvailable : Bool) (dataNonempty : Bool)
  /-- loadBarcelonaMosquitoAlertData (app.js 687-696): remove the Mapbox map,
  then initMap (teardown happens before any fetch). -/
  | loadBarcelona
  /-- loadSpainMosquitoAlertGridData (part_005 lines 1234-1246): remove the
  Mapbox map, then initMap. -/
  | loadSpainGrid
  /-- MapManager.loadRegion (mapManager.js 132-147): initMap only when no
  Leaflet map exists. -/
  | loadRegionGeneric

/-- One orchestrator step on the backend state. -/
def backendStep (s : BackendState) : OrchestratorOp → BackendState
  | .loadSpainMuni avail ok =>
    if avail && ok then { leaflet := false, mb := true } else s
  | .loadBarcelona => initMapState { s with mb := false }
  | .loadSpainGrid => initMapState { s with mb := false }
  | .loadRegionGeneric => if s.leaflet then s else initMapState s

/-- Backend state reached from the initial state (no maps) after a sequence
of orchestrator operations. -/
def runBackend (ops : List OrchestratorOp) : BackendState :=
  ops.foldl backendStep { leaflet := false, mb := false }

/-! ## Choropleth and raster coloring (src/js/app.js lines 584-601 and
736-754, src/unnamed/part_005 lines 1305-1323)

The external chroma color scale is a parameter `scale : ℚ → String`; the code
always calls it as `scale(Math.min(value, maxVRI) / maxVRI)`.  A `none`
result models fully transparent (the `null` return of the pixel color
functions, and the `rgba(0,0,0,0)` default of the match expression). -/

/-- Barcelona pixel color function (app.js lines 739-752): null for negative
or missing values, otherwise the scaled color. -/
def bcnPixelColor (scale : ℚ → String) (maxVRI : ℚ) (pixel : Option ℚ) :
    Option String :=
  match pixel with
  | none => none
  | some v => if v < 0 then none else some (scale (min v maxVRI / maxVRI))

/-- Spain 1km grid pixel color function (part_005 lines 1310-1321): null for
missing, non-positive, or sentinel-valued pixels, otherwise the scaled
color.  (The `Number.isFinite` guard is vacuous over ℚ.) -/
def gridPixelColor (scale : ℚ → String) (maxVRI : ℚ) (noData : Option ℚ)
    (pixel : Option ℚ) : Option String :=
  match pixel with
  | none => none
  | some v =>
    if v ≤ 0 ∨ noData = some v then none
    else some (scale (min v maxVRI / maxVRI))

/-- Fill color a municipality receives from the Mapbox match expression built
in app.js lines 588-601: the scaled color of its aggregated value when the
code is listed, else the transparent default. -/
def muniFillColor (scale : ℚ → String) (maxVRI : ℚ)
    (agg : List (String × ℚ)) (code : String) : Option String :=
  (agg.find? (fun p => p.1 = code)).map
    (fun p => scale (min p.2 maxVRI / maxVRI))

/-! ## Tabular loader fallback (src/unnamed/part_006, DataLoader)

`loadCSV` serves the cache, else fetches and parses, and on any failure
(network rejection, non-2xx, parse error) returns the synthetic sample
series.  `generateSampleCSVData` builds 12 monthly rows starting at
2024-01-01; the random number source is a parameter `rand` (each call site
consumes one draw, numbered left to right). -/

/-- One synthetic sample row; every field is present and numeric. -/
structure SampleRow where
  date : String
  risk_level : ℚ
  temperature : ℚ
  humidity : ℚ
  observations : ℤ
deriving DecidableEq, Repr

/-- Shallow embedding of generateSampleCSVData (part_006 lines 156-174):
twelve monthly rows; `setMonth(startMonth + i)` on the first of January 2024
lands on the first of month `i + 1` (UTC model). -/
def generateSampleCSVData (rand : ℕ → ℚ) : List SampleRow :=
  (List.range 12).map
    (fun i =>
      { date := isoOfDate ⟨2024, 1 + i, 1⟩
        risk_level := rand (4 * i) * 100
        temperature := 15 + rand (4 * i + 1) * 20
        humidity := 40 + rand (4 * i + 2) * 40
        observations := ⌊rand (4 * i + 3) * 100⌋ })

/-- Result of the fetch-and-parse attempt of loadCSV. -/
inductive CsvFetch
  | failure
  | success (rows : List SampleRow)

/-- Shallow embedding of DataLoader.loadCSV (part_006 lines 12-30): cache
hit, else the fetched rows, else the synthetic fallback. -/
def loadCSV (rand : ℕ → ℚ) (cached : Option (List SampleRow))
    (fetched : CsvFetch) : List SampleRow :=
  match cached with
  | some rows => rows
  | none =>
    match fetched with
    | .success rows => rows
    | .failure => generateSampleCSVData rand

/-! ## Supporting lemmas: date enumeration -/

theorem mem_buildDaysFuel (n : ℕ) :
    ∀ (a : VDate) (b : CivilDate) (s : String),
      dateKey b + 1 - dateKey a.1 ≤ n →
      (s ∈ buildDaysFuel n a b ↔
        ∃ d : CivilDate, d.Valid ∧ dateKey a.1 ≤ dateKey d ∧
          dateKey d ≤ dateKey b ∧ s = isoOfDate d) := by
  induction n with
  | zero =>
    intro a b s hn
    simp only [buildDaysFuel, List.not_mem_nil, false_iff]
    rintro ⟨d, _, h1, h2, rfl⟩
    omega
  | succ n ih =>
    intro a b s hn
    by_cases h : dateKey a.1 ≤ dateKey b
    · rw [buildDaysFuel, if_pos h]
      have hnext := dateKey_lt_nextDay a.1 a.2
      have hn' : dateKey b + 1 - dateKey (vNext a).1 ≤ n := by
        simp only [vNext]
        omega
      simp only [List.mem_cons, ih (vNext a) b s hn']
      constructor
      · rintro (rfl | ⟨d, hd, h1, h2, rfl⟩)
        · exact ⟨a.1, a.2, le_refl _, h, rfl⟩
        · refine ⟨d, hd, ?_, h2, rfl⟩
          simp only [vNext] at h1
          omega
      · rintro ⟨d, hd, h1, h2, rfl⟩
        rcases eq_or_lt_of_le h1 with heq | hlt
        · left
          rw [dateKey_injective_on_valid a.1 d a.2 hd heq]
        · right
          refine ⟨d, hd, ?_, h2, rfl⟩
          simp only [vNext]
          exact nextDay_le_of_lt a.1 d a.2 hd hlt
    · rw [buildDaysFuel, if_neg h]
      simp only [List.not_mem_nil, false_iff]
      rintro ⟨d, _, h1, h2, rfl⟩
      omega

theorem mem_buildDays (a : VDate) (b : CivilDate) (s : String) :
    s ∈ buildDays a b ↔
      ∃ d : CivilDate, d.Valid ∧ dateKey a.1 ≤ dateKey d ∧
        dateKey d ≤ dateKey b ∧ s = isoOfDate d :=
  mem_buildDaysFuel _ a b s (le_refl _)

theorem y_le_of_dateKey_le (d e : CivilDate) (he : e.Valid) (hy : e.y ≤ 9999)
    (h : dateKey d ≤ dateKey e) : d.y ≤ 9999 := by
  obtain ⟨dy, dm, dd⟩ := d
  obtain ⟨ey, em, ed⟩ := e
  obtain ⟨he1, he2, he3, he4⟩ := he
  have := daysInMonth_le ey em
  simp only [dateKey] at h
  simp only at hy ⊢
  omega

theorem buildDaysFuel_nodup (n : ℕ) :
    ∀ (a : VDate) (b : CivilDate), b.Valid → b.y ≤ 9999 →
      dateKey b + 1 - dateKey a.1 ≤ n → (buildDaysFuel n a b).Nodup := by
  induction n with
  | zero =>
    intro a b _ _ _
    simp only [buildDaysFuel]
    exact List.nodup_nil
  | succ n ih =>
    intro a b hb hy hn
    by_cases h : dateKey a.1 ≤ dateKey b
    · rw [buildDaysFuel, if_pos h]
      have hnext := dateKey_lt_nextDay a.1 a.2
      have hn' : dateKey b + 1 - dateKey (vNext a).1 ≤ n := by
        simp only [vNext]
        omega
      refine List.nodup_cons.mpr ⟨?_, ih (vNext a) b hb hy hn'⟩
      rw [mem_buildDaysFuel n (vNext a) b _ hn']
      rintro ⟨d, hd, h1, h2, hs⟩
      have hlt : dateKey a.1 < dateKey d := by
        simp only [vNext] at h1
        omega
      have hay : a.1.y ≤ 9999 := y_le_of_dateKey_le a.1 b hb hy h
      have hdy : d.y ≤ 9999 := y_le_of_dateKey_le d b hb hy h2
      have hpa := parseIsoDate_isoOfDate a.1 a.2 hay
      have hpd := parseIsoDate_isoOfDate d hd hdy
      rw [hs] at hpa
      rw [hpa] at hpd
      simp only [Option.some.injEq] at hpd
      rw [hpd] at hlt
      exact lt_irrefl _ hlt
    · rw [buildDaysFuel, if_neg h]
      exact List.nodup_nil

theorem buildDays_nodup (a : VDate) (b : CivilDate) (hb : b.Valid)
    (hy : b.y ≤ 9999) : (buildDays a b).Nodup :=
  buildDaysFuel_nodup _ a b hb hy (le_refl _)

theorem buildDays_head (a : VDate) (b : CivilDate) (h : dateKey a.1 ≤ dateKey b) :
    (buildDays a b).head? = some (isoOfDate a.1) := by
  unfold buildDays
  have h1 : dateKey b + 1 - dateKey a.1 = (dateKey b - dateKey a.1) + 1 := by omega
  rw [h1, buildDaysFuel, if_pos h]
  rfl

theorem parseIsoDate_ne_empty (s : String) (c : CivilDate)
    (h : parseIsoDate s = some c) : s ≠ "" := by
  intro hs
  rw [hs] at h
  have hnone : parseIsoDate "" = none := by decide
  rw [hnone] at h
  exact absurd h (by simp)

/-! ## Supporting lemmas: normalizeDateRange -/

theorem pickField_first (sd : String) (ed : Option String) (today : String)
    (h : sd ≠ "") : pickField (some sd) ed today = sd := by
  unfold pickField jsOrStr jsTruthy
  simp [h]

theorem pickField_second (ed : String) (today : String) (h : ed ≠ "") :
    pickField none (some ed) today = ed := by
  unfold pickField jsOrStr jsTruthy
  simp [h]

theorem pickField_none_none (today : String) :
    pickField none none today = today := by
  rfl

/-- Object branch of normalizeDateRange when both endpoints are present and
parse: it is the swap-if-reversed of the inputs. -/
theorem normalizeDateRange_obj (today sd ed : String) (a b : CivilDate)
    (h1 : parseIsoDate sd = some a) (h2 : parseIsoDate ed = some b) :
    normalizeDateRange today (.obj (some sd) (some ed)) =
      if dateKey b < dateKey a then (ed, sd) else (sd, ed) := by
  have hsd := parseIsoDate_ne_empty _ _ h1
  have hed := parseIsoDate_ne_empty _ _ h2
  simp only [normalizeDateRange]
  rw [pickField_first sd (some ed) today hsd, pickField_first ed (some sd) today hed,
    h1, h2]

/-! ## Claim theorems: C5 and C10 -/

/-- C5: for every pair of ISO date strings, the resolved range has start ≤
end (a reversed pair is auto-swapped), a single date string resolves to a
range with both endpoints equal to it, and buildDateArray returns exactly
every ISO calendar day from start to end inclusive: its members are precisely
the renderings of the valid civil dates between the parsed endpoints, without
duplicates, starting at the start date. -/
theorem claim_C5_dateRange :
    (∀ today s : String, normalizeDateRange today (.str s) = (s, s)) ∧
    (∀ (today sd ed : String) (a b : CivilDate),
      parseIsoDate sd = some a → parseIsoDate ed = some b →
      (normalizeDateRange today (.obj (some sd) (some ed)) = (sd, ed) ∧
          dateKey a ≤ dateKey b) ∨
        (normalizeDateRange today (.obj (some sd) (some ed)) = (ed, sd) ∧
          dateKey b < dateKey a)) ∧
    (∀ (today sd ed : String) (a b : CivilDate),
      parseIsoDate sd = some a → parseIsoDate ed = some b →
      dateKey a ≤ dateKey b →
      (∀ s : String,
        s ∈ buildDateArray today (.obj (some sd) (some ed)) ↔
          ∃ d : CivilDate, d.Valid ∧ dateKey a ≤ dateKey d ∧
            dateKey d ≤ dateKey b ∧ s = isoOfDate d) ∧
        (buildDateArray today (.obj (some sd) (some ed))).Nodup ∧
        (buildDateArray today (.obj (some sd) (some ed))).head? = some sd) := by
  refine ⟨fun today s => rfl, ?_, ?_⟩
  · intro today sd ed a b h1 h2
    rw [normalizeDateRange_obj today sd ed a b h1 h2]
    by_cases hlt : dateKey b < dateKey a
    · right
      exact ⟨if_pos hlt, hlt⟩
    · left
      exact ⟨if_neg hlt, by omega⟩
  · intro today sd ed a b h1 h2 hab
    have hnorm : normalizeDateRange today (.obj (some sd) (some ed)) = (sd, ed) := by
      rw [normalizeDateRange_obj today sd ed a b h1 h2, if_neg (by omega)]
    have hrw : buildDateArray today (.obj (some sd) (some ed)) =
        buildDays ⟨a, parseIsoDate_valid sd a h1⟩ b := by
      unfold buildDateArray
      rw [hnorm]
      dsimp only
      rw [parseValidDate_some sd a h1, h2]
    rw [hrw]
    refine ⟨fun s => mem_buildDays _ b s, ?_, ?_⟩
    · exact buildDays_nodup _ b (parseIsoDate_valid ed b h2) (parseIsoDate_y_le ed b h2)
    · rw [buildDays_head ⟨a, parseIsoDate_valid sd a h1⟩ b hab]
      rw [isoOfDate_parseIsoDate sd a h1]

/-- Witness for C5: the spec's own example, 2024-01-30 to 2024-02-01, yields
exactly the three days, and the membership characterization instantiated at
2024-01-31 follows from the claim theorem with its hypotheses discharged by
computation. -/
theorem claim_C5_dateRange_witness :
    buildDateArray "2024-03-15" (.obj (some "2024-01-30") (some "2024-02-01")) =
      ["2024-01-30", "2024-01-31", "2024-02-01"] ∧
    normalizeDateRange "2024-03-15" (.obj (some "2024-03-10") (some "2024-03-05")) =
      ("2024-03-05", "2024-03-10") ∧
    normalizeDateRange "2024-03-15" (.str "2024-03-05") =
      ("2024-03-05", "2024-03-05") ∧
    "2024-01-31" ∈
      buildDateArray "2024-03-15" (.obj (some "2024-01-30") (some "2024-02-01")) := by
  refine ⟨by decide, ?_, claim_C5_dateRange.1 "2024-03-15" "2024-03-05", ?_⟩
  · have h := claim_C5_dateRange.2.1 "2024-03-15" "2024-03-10" "2024-03-05"
      ⟨2024, 3, 10⟩ ⟨2024, 3, 5⟩ (by decide) (by decide)
    rcases h with ⟨heq, hord⟩ | ⟨heq, _⟩
    · exact absurd hord (by decide)
    · exact heq
  · have h := (claim_C5_dateRange.2.2 "2024-03-15" "2024-01-30" "2024-02-01"
      ⟨2024, 1, 30⟩ ⟨2024, 2, 1⟩ (by decide) (by decide) (by decide)).1 "2024-01-31"
    exact h.mpr ⟨⟨2024, 1, 31⟩, by decide, by decide, by decide, by decide⟩

/-- C10: normalizeDateRange is total over its public input: null/undefined
yields today for both endpoints, an object with no endpoints yields today for
both, and an object with exactly one (truthy) endpoint fills the missing one
from the present one; in every case both result components are defined
strings. -/
theorem claim_C10_normalizeDateRange_total :
    (∀ today : String, normalizeDateRange today .nullish = (today, today)) ∧
    (∀ today : String, normalizeDateRange today (.obj none none) = (today, today)) ∧
    (∀ today s : String, s ≠ "" →
      normalizeDateRange today (.obj (some s) none) = (s, s)) ∧
    (∀ today s : String, s ≠ "" →
      normalizeDateRange today (.obj none (some s)) = (s, s)) := by
  refine ⟨fun today => rfl, ?_, ?_, ?_⟩
  · intro today
    simp only [normalizeDateRange, pickField_none_none]
    cases h : parseIsoDate today with
    | none => rfl
    | some a => simp
  · intro today s hs
    simp only [normalizeDateRange, pickField_first s none today hs,
      pickField_second s today hs]
    cases h : parseIsoDate s with
    | none => rfl
    | some a => simp
  · intro today s hs
    simp only [normalizeDateRange, pickField_first s none today hs,
      pickField_second s today hs]
    cases h : parseIsoDate s with
    | none => rfl
    | some a => simp

/-- Witness for C10: concrete instances of every branch, hypotheses
discharged by computation. -/
theorem claim_C10_normalizeDateRange_total_witness :
    normalizeDateRange "2024-03-15" .nullish = ("2024-03-15", "2024-03-15") ∧
    normalizeDateRange "2024-03-15" (.obj (some "2024-03-05") none) =
      ("2024-03-05", "2024-03-05") ∧
    normalizeDateRange "2024-03-15" (.obj none (some "2024-03-05")) =
      ("2024-03-05", "2024-03-05") :=
  ⟨claim_C10_normalizeDateRange_total.1 "2024-03-15",
    claim_C10_normalizeDateRange_total.2.2.1 "2024-03-15" "2024-03-05" (by decide),
    claim_C10_normalizeDateRange_total.2.2.2 "2024-03-15" "2024-03-05" (by decide)⟩

/-! ## Claim theorems: C9, C7, C8 -/

/-- C9: for every URL whose CSV fetch fails (network failure, non-2xx or
parse failure, all modelled by `CsvFetch.failure`) and is not cached, loadCSV
returns the synthetic fallback series: exactly 12 monthly points whose date
sequence starts at the fixed epoch 2024-01-01, each row carrying all required
fields with numeric values (by construction of `SampleRow`: risk_level,
temperature and humidity are rationals and observations an integer, whatever
the random source produces), so the fixed point count and starting date
distinguish fallback data. -/
theorem claim_C9_csvFallback (rand : ℕ → ℚ) :
    (loadCSV rand none .failure).length = 12 ∧
    (loadCSV rand none .failure).map SampleRow.date =
      ["2024-01-01", "2024-02-01", "2024-03-01", "2024-04-01",
       "2024-05-01", "2024-06-01", "2024-07-01", "2024-08-01",
       "2024-09-01", "2024-10-01", "2024-11-01", "2024-12-01"] ∧
    ((loadCSV rand none .failure).map SampleRow.date).head? = some "2024-01-01" ∧
    (loadCSV rand none .failure).map
        (fun r => (r.risk_level, r.temperature, r.humidity, r.observations)) =
      (List.range 12).map
        (fun i => (rand (4 * i) * 100, 15 + rand (4 * i + 1) * 20,
          40 + rand (4 * i + 2) * 40, ⌊rand (4 * i + 3) * 100⌋)) := by
  refine ⟨rfl, rfl, rfl, rfl⟩

/-- C7: over every reachable orchestrator state (any sequence of region,
model-selector and date transitions from the initial no-map state), the
Leaflet map and the Mapbox GL map are never simultaneously live: every
transition that constructs one backend's instance removes the other's
first. -/
theorem claim_C7_backendExclusive (ops : List OrchestratorOp) :
    ((runBackend ops).leaflet && (runBackend ops).mb) = false := by
  suffices h : ∀ s : BackendState, (s.leaflet && s.mb) = false →
      ((ops.foldl backendStep s).leaflet && (ops.foldl backendStep s).mb) = false by
    exact h ⟨false, false⟩ rfl
  induction ops with
  | nil => exact fun s hs => hs
  | cons op rest ih =>
    intro s hs
    simp only [List.foldl_cons]
    apply ih
    cases op with
    | loadSpainMuni avail ok =>
      simp only [backendStep]
      by_cases h : (avail && ok) = true
      · rw [if_pos h]
        rfl
      · rw [if_neg h]
        exact hs
    | loadBarcelona => rfl
    | loadSpainGrid => rfl
    | loadRegionGeneric =>
      simp only [backendStep]
      by_cases h : s.leaflet = true
      · rw [if_pos h]
        exact hs
      · rw [if_neg h]
        rfl

/-- C8: every rendered value is colored as scale(min(value, maxVRI)/maxVRI),
whose argument lies in [0,1] for values passing the site's validity
threshold, and each call site renders its invalid values fully transparent
(none) rather than colored: the Barcelona raster path treats missing or
negative pixels as invalid, the Spain 1km grid path treats missing,
non-positive or sentinel-equal pixels as invalid, and the municipality
choropleth colors exactly the codes present in the aggregate, all others
falling to the transparent default. -/
theorem claim_C8_coloring (scale : ℚ → String) (maxVRI : ℚ) (hmax : 0 < maxVRI)
    (noData : Option ℚ) (agg : List (String × ℚ)) (code : String) (v : ℚ) :
    (bcnPixelColor scale maxVRI none = none) ∧
    (v < 0 → bcnPixelColor scale maxVRI (some v) = none) ∧
    (0 ≤ v →
      bcnPixelColor scale maxVRI (some v) = some (scale (min v maxVRI / maxVRI)) ∧
      0 ≤ min v maxVRI / maxVRI ∧ min v maxVRI / maxVRI ≤ 1) ∧
    (gridPixelColor scale maxVRI noData none = none) ∧
    (v ≤ 0 ∨ noData = some v → gridPixelColor scale maxVRI noData (some v) = none) ∧
    (0 < v → noData ≠ some v →
      gridPixelColor scale maxVRI noData (some v) =
        some (scale (min v maxVRI / maxVRI)) ∧
      0 ≤ min v maxVRI / maxVRI ∧ min v maxVRI / maxVRI ≤ 1) ∧
    (List.find? (fun p => p.1 = code) agg = none →
      muniFillColor scale maxVRI agg code = none) ∧
    (∀ p : String × ℚ, List.find? (fun p => p.1 = code) agg = some p →
      muniFillColor scale maxVRI agg code = some (scale (min p.2 maxVRI / maxVRI)) ∧
      (0 ≤ p.2 → 0 ≤ min p.2 maxVRI / maxVRI ∧ min p.2 maxVRI / maxVRI ≤ 1)) := by
  have hbounds : ∀ w : ℚ, 0 ≤ w → 0 ≤ min w maxVRI / maxVRI ∧ min w maxVRI / maxVRI ≤ 1 := by
    intro w hw
    constructor
    · exact div_nonneg (le_min hw hmax.le) hmax.le
    · rw [div_le_one hmax]
      exact min_le_right w maxVRI
  refine ⟨rfl, ?_, ?_, rfl, ?_, ?_, ?_, ?_⟩
  · intro hv
    simp only [bcnPixelColor, if_pos hv]
  · intro hv
    refine ⟨?_, hbounds v hv⟩
    simp only [bcnPixelColor, if_neg (not_lt.mpr hv)]
  · intro hv
    simp only [gridPixelColor]
    rw [if_pos hv]
  · intro hv hnd
    refine ⟨?_, hbounds v hv.le⟩
    simp only [gridPixelColor]
    rw [if_neg ?_]
    rintro (h0 | hsent)
    · exact absurd h0 (not_le.mpr hv)
    · exact hnd hsent
  · intro hfind
    simp only [muniFillColor, hfind]
    rfl
  · intro p hfind
    refine ⟨?_, fun hp => hbounds p.2 hp⟩
    simp only [muniFillColor, hfind]
    rfl

/-- Witness for C8: concrete instances on both raster paths and the
choropleth expression, hypotheses discharged by computation.  maxVRI is the
configured 0.3; value 0.4 caps at the maximum, the sentinel 255 is
transparent on the grid path. -/
theorem claim_C8_coloring_witness :
    ((0 : ℚ) < 3 / 10) ∧
    bcnPixelColor (fun _ => "#123456") (3 / 10) (some (2 / 5)) =
      some ((fun _ => "#123456") (min (2 / 5 : ℚ) (3 / 10) / (3 / 10))) ∧
    gridPixelColor (fun _ => "#123456") (3 / 10) (some 255) (some 255) = none ∧
    muniFillColor (fun _ => "#123456") (3 / 10) [("08019", 1 / 10)] "08019" =
      some ((fun _ => "#123456") (min (1 / 10 : ℚ) (3 / 10) / (3 / 10))) := by
  have h := claim_C8_coloring (fun _ => "#123456") (3 / 10) (by norm_num)
    (some 255) [("08019", 1 / 10)] "08019"
  refine ⟨by norm_num, ((h (2 / 5)).2.2.1 (by norm_num)).1, ?_, ?_⟩
  · exact (h 255).2.2.2.2.1 (Or.inr rfl)
  · exact ((h (1 / 10)).2.2.2.2.2.2.2 ("08019", 1 / 10) (by simp)).1

/-! ## Claim theorems: C6 -/

/-- Under the bookkeeping invariant, removeObservationLayer leaves a fully
detached state: no Mapbox observation layer or source, no attached Leaflet
observation layer, no handle. -/
theorem removeObservationLayer_clean (s : OverlayState) (h : ObsInv s) :
    removeObservationLayer s =
      { s with mbObsLayer := none, mbObsSource := none,
               leafletObsAttached := [], obsHandle := none } := by
  obtain ⟨lf, mb, msrc, mlay, att, hd⟩ := s
  obtain ⟨hAll, hLen, hMbL, hMbS, hLD, hMD⟩ := h
  simp only at hAll hLen hMbL hMbS hLD hMD
  unfold removeObservationLayer
  dsimp only
  cases mb with
  | false =>
    obtain ⟨hm1, hm2⟩ := hMD rfl
    subst hm1
    subst hm2
    simp only [Bool.false_eq_true, if_false]
    cases hd with
    | none =>
      have hae : att = [] := by
        cases att with
        | nil => rfl
        | cons x rest => exact absurd (hAll x (List.mem_cons_self x rest)) (by simp)
      subst hae
      simp
    | some x0 =>
      cases lf with
      | false =>
        have hae := hLD rfl
        subst hae
        simp
      | true =>
        simp only [Option.isSome_some, and_true, if_true]
        simp
        all_goals
          intro a ha
          have h2 := hAll a ha
          simp only [Option.some.injEq] at h2
          exact h2
  | true =>
    simp only [if_true]
    cases hd with
    | none =>
      have hae : att = [] := by
        cases att with
        | nil => rfl
        | cons x rest => exact absurd (hAll x (List.mem_cons_self x rest)) (by simp)
      subst hae
      simp
    | some x0 =>
      cases lf with
      | false =>
        have hae := hLD rfl
        subst hae
        simp
      | true =>
        simp only [Option.isSome_some, and_true, if_true]
        simp
        all_goals
          intro a ha
          have h2 := hAll a ha
          simp only [Option.some.injEq] at h2
          exact h2

/-- Under the invariant, addObservationLayer attaches exactly the new layer
on whichever backend is live, on top of the fully detached state. -/
theorem addObservationLayer_eq (id : ℕ) (v : Bool) (s : OverlayState)
    (h : ObsInv s) :
    addObservationLayer id v s =
      if s.mbLive then
        { s with mbObsSource := some id, mbObsLayer := some id,
                 obsHandle := some id, leafletObsAttached := [] }
      else if s.leafletLive then
        { s with mbObsSource := none, mbObsLayer := none,
                 obsHandle := some id,
                 leafletObsAttached := if v then [id] else [] }
      else
        { s with mbObsSource := none, mbObsLayer := none,
                 obsHandle := none, leafletObsAttached := [] } := by
  unfold addObservationLayer
  rw [removeObservationLayer_clean s h]

/-- The invariant is preserved by adding an observation overlay. -/
theorem addObservationLayer_inv (id : ℕ) (v : Bool) (s : OverlayState)
    (h : ObsInv s) : ObsInv (addObservationLayer id v s) := by
  rw [addObservationLayer_eq id v s h]
  obtain ⟨lf, mb, msrc, mlay, att, hd⟩ := s
  dsimp only
  cases mb with
  | true =>
    simp only [if_true]
    refine ⟨by simp, by simp, ?_, ?_, by simp, by simp⟩
    · intro l hl
      simp only [Option.some.injEq] at hl
      simp [hl]
    · intro l hl
      simp only [Option.some.injEq] at hl
      simp [hl]
  | false =>
    cases lf with
    | true =>
      simp only [Bool.false_eq_true, if_false, if_true]
      cases v with
      | true =>
        refine ⟨?_, by simp, by simp, by simp, by simp, by simp⟩
        intro x hx
        simp at hx
        simp [hx]
      | false =>
        exact ⟨by simp, by simp, by simp, by simp, by simp, by simp⟩
    | false =>
      simp only [Bool.false_eq_true, if_false]
      exact ⟨by simp, by simp, by simp, by simp, by simp, by simp⟩

/-- The invariant is preserved by removing the observation overlay. -/
theorem removeObservationLayer_inv (s : OverlayState) (h : ObsInv s) :
    ObsInv (removeObservationLayer s) := by
  rw [removeObservationLayer_clean s h]
  exact ⟨by simp, by simp, by simp, by simp, by simp, by simp⟩

/-- C6: at most one observation layer (and on the Mapbox backend at most one
observation source) is active at any time; adding a new observation overlay
fully removes the previous one and clears the bookkeeping reference before
attaching the new one, so two consecutive adds leave exactly the second
overlay active (every active layer and source carries the second id) with the
first fully detached. -/
theorem claim_C6_overlayReplacement (s : OverlayState) (h : ObsInv s)
    (idA idB : ℕ) (v1 v2 : Bool) :
    (∀ id v, ObsInv (addObservationLayer id v s)) ∧
    ObsInv (removeObservationLayer s) ∧
    s.leafletObsAttached.length ≤ 1 ∧
    (∀ x ∈ activeObs (addObservationLayer idB v2 (addObservationLayer idA v1 s)),
      x = idB) ∧
    (activeObs (addObservationLayer idB v2 (addObservationLayer idA v1 s))).length ≤ 1 ∧
    (∀ src, (addObservationLayer idB v2 (addObservationLayer idA v1 s)).mbObsSource =
        some src → src = idB) ∧
    (idA ≠ idB →
      idA ∉ activeObs (addObservationLayer idB v2 (addObservationLayer idA v1 s))) := by
  have h1 : ObsInv (addObservationLayer idA v1 s) := addObservationLayer_inv idA v1 s h
  have hactive : ∀ (t : OverlayState), ObsInv t → ∀ id v,
      (∀ x ∈ activeObs (addObservationLayer id v t), x = id) ∧
        (activeObs (addObservationLayer id v t)).length ≤ 1 ∧
        (∀ src, (addObservationLayer id v t).mbObsSource = some src → src = id) := by
    intro t ht id v
    rw [addObservationLayer_eq id v t ht]
    obtain ⟨lf, mb, msrc, mlay, att, hd⟩ := t
    dsimp only
    cases mb with
    | true =>
      simp only [if_true]
      refine ⟨?_, by simp [activeObs], ?_⟩
      · intro x hx
        simp [activeObs] at hx
        omega
      · intro src hsrc
        simp only [Option.some.injEq] at hsrc
        omega
    | false =>
      cases lf with
      | true =>
        simp only [Bool.false_eq_true, if_false, if_true]
        cases v with
        | true =>
          refine ⟨?_, by simp [activeObs], by simp⟩
          intro x hx
          simp [activeObs] at hx
          omega
        | false =>
          refine ⟨?_, by simp [activeObs], by simp⟩
          intro x hx
          simp [activeObs] at hx
      | false =>
        simp only [Bool.false_eq_true, if_false]
        refine ⟨?_, by simp [activeObs], by simp⟩
        intro x hx
        simp [activeObs] at hx
  have hmain := hactive (addObservationLayer idA v1 s) h1 idB v2
  exact ⟨fun id v => addObservationLayer_inv id v s h,
    removeObservationLayer_inv s h, h.2.1, hmain.1, hmain.2.1, hmain.2.2,
    fun hne hmem => hne (hmain.1 idA hmem)⟩

/-- Witness for C6: starting from a live Leaflet map with nothing attached
(the invariant holds by computation), adding overlay 1 and then overlay 2
leaves exactly layer 2 active and layer 1 fully detached. -/
theorem claim_C6_overlayReplacement_witness :
    ObsInv ⟨true, false, none, none, [], none⟩ ∧
    activeObs (addObservationLayer 2 true (addObservationLayer 1 true
      ⟨true, false, none, none, [], none⟩)) = [2] ∧
    1 ∉ activeObs (addObservationLayer 2 true (addObservationLayer 1 true
      ⟨true, false, none, none, [], none⟩)) := by
  have hinv : ObsInv (⟨true, false, none, none, [], none⟩ : OverlayState) :=
    ⟨by simp, by simp, by simp, by simp, by simp, by simp⟩
  exact ⟨hinv, by decide,
    (claim_C6_overlayReplacement _ hinv 1 2 true true).2.2.2.2.2.2 (by decide)⟩

/-! ## Claim theorems: C2 -/

theorem rowsForCode_cons (r : MuniRow) (rest : List MuniRow) (code : String) :
    rowsForCode (r :: rest) code =
      match validRow r with
      | some (s, v) =>
        if s = code then v :: rowsForCode rest code else rowsForCode rest code
      | none => rowsForCode rest code := by
  unfold rowsForCode
  rw [List.filterMap_cons]
  cases hv : validRow r with
  | none => simp
  | some p =>
    obtain ⟨s, v⟩ := p
    by_cases hs : s = code
    · simp [hs]
    · simp [hs]

theorem sum_foldl_inner (rows : List MuniRow) (code : String) (acc : ℚ) :
    rows.foldl
        (fun a r =>
          match validRow r with
          | some (s, v) => if s = code then a + v else a
          | none => a) acc = acc + (rowsForCode rows code).sum := by
  induction rows generalizing acc with
  | nil => simp [rowsForCode]
  | cons r rest ih =>
    rw [List.foldl_cons, rowsForCode_cons]
    cases hv : validRow r with
    | none =>
      simp only [hv]
      exact ih acc
    | some p =>
      obtain ⟨s, v⟩ := p
      by_cases hs : s = code
      · simp only [hv, if_pos hs, List.sum_cons]
        rw [ih (acc + v)]
        ring
      · simp only [hv, if_neg hs]
        exact ih acc

theorem count_foldl_inner (rows : List MuniRow) (code : String) (acc : ℕ) :
    rows.foldl
        (fun a r =>
          match validRow r with
          | some (s, _) => if s = code then a + 1 else a
          | none => a) acc = acc + (rowsForCode rows code).length := by
  induction rows generalizing acc with
  | nil => simp [rowsForCode]
  | cons r rest ih =>
    rw [List.foldl_cons, rowsForCode_cons]
    cases hv : validRow r with
    | none =>
      simp only [hv]
      exact ih acc
    | some p =>
      obtain ⟨s, v⟩ := p
      by_cases hs : s = code
      · simp only [hv, if_pos hs, List.length_cons]
        rw [ih (acc + 1)]
        omega
      · simp only [hv, if_neg hs]
        exact ih acc

theorem sumForCode_eq (payloads : List (List MuniRow)) (code : String) :
    sumForCode payloads code =
      (payloads.map (fun rows => (rowsForCode rows code).sum)).sum := by
  suffices h : ∀ acc : ℚ,
      payloads.foldl
          (fun acc rows =>
            rows.foldl
              (fun a r =>
                match validRow r with
                | some (s, v) => if s = code then a + v else a
                | none => a) acc) acc =
        acc + (payloads.map (fun rows => (rowsForCode rows code).sum)).sum by
    unfold sumForCode
    rw [h 0, zero_add]
  induction payloads with
  | nil => simp
  | cons rows rest ih =>
    intro acc
    rw [List.foldl_cons, sum_foldl_inner rows code acc, ih, List.map_cons,
      List.sum_cons]
    ring

theorem countForCode_eq (payloads : List (List MuniRow)) (code : String) :
    countForCode payloads code =
      (payloads.map (fun rows => (rowsForCode rows code).length)).sum := by
  suffices h : ∀ acc : ℕ,
      payloads.foldl
          (fun acc rows =>
            rows.foldl
              (fun a r =>
                match validRow r with
                | some (s, _) => if s = code then a + 1 else a
                | none => a) acc) acc =
        acc + (payloads.map (fun rows => (rowsForCode rows code).length)).sum by
    unfold countForCode
    rw [h 0, Nat.zero_add]
  induction payloads with
  | nil => simp
  | cons rows rest ih =>
    intro acc
    rw [List.foldl_cons, count_foldl_inner rows code acc, ih, List.map_cons,
      List.sum_cons]
    omega

theorem perDate_sums (payloads : List (List MuniRow)) (code : String)
    (hOne : ∀ rows ∈ payloads, (rowsForCode rows code).length ≤ 1) :
    (payloads.map (fun rows => (rowsForCode rows code).sum)).sum =
      (payloads.filterMap (fun rows => (rowsForCode rows code).head?)).sum ∧
    (payloads.map (fun rows => (rowsForCode rows code).length)).sum =
      (payloads.filterMap (fun rows => (rowsForCode rows code).head?)).length := by
  induction payloads with
  | nil => simp
  | cons rows rest ih =>
    have h1 := hOne rows (List.mem_cons_self rows rest)
    obtain ⟨ihs, ihl⟩ := ih (fun r hr => hOne r (List.mem_cons_of_mem _ hr))
    cases hr : rowsForCode rows code with
    | nil =>
      simp only [List.map_cons, List.sum_cons, List.filterMap_cons, hr,
        List.head?_nil, List.sum_nil, List.length_nil]
      constructor
      · rw [ihs]; ring
      · omega
    | cons v vs =>
      have hvs : vs = [] := by
        rw [hr] at h1
        simp only [List.length_cons] at h1
        exact List.eq_nil_of_length_eq_zero (by omega)
      subst hvs
      simp only [List.map_cons, List.sum_cons, List.filterMap_cons, hr,
        List.head?_cons, List.sum_cons, List.length_cons, List.sum_singleton,
        List.length_singleton]
      constructor
      · rw [ihs]
        simp
      · simp [ihl]
        omega

/-- C2: the aggregated value reported for a code is the arithmetic mean of
that code's parsed ma_prob_mean values over exactly the successfully fetched
dates whose payload contains the code with a present NATCODE and a numeric
value (each such date contributing its single valid row): a unit present in
only k of the n fetched dates is divided by k, the length of the filtered
per-date value list, not by n, and rows with missing codes or non-numeric
values contribute nothing. -/
theorem claim_C2_muniAggregation (payloads : List (List MuniRow)) (code : String)
    (hOne : ∀ rows ∈ payloads, (rowsForCode rows code).length ≤ 1) :
    aggValue payloads code =
      if payloads.filterMap (fun rows => (rowsForCode rows code).head?) = []
      then none
      else
        some ((payloads.filterMap (fun rows => (rowsForCode rows code).head?)).sum /
          ((payloads.filterMap
              (fun rows => (rowsForCode rows code).head?)).length : ℚ)) := by
  obtain ⟨hs, hl⟩ := perDate_sums payloads code hOne
  have hsum : sumForCode payloads code =
      (payloads.filterMap (fun rows => (rowsForCode rows code).head?)).sum := by
    rw [sumForCode_eq, hs]
  have hcount : countForCode payloads code =
      (payloads.filterMap (fun rows => (rowsForCode rows code).head?)).length := by
    rw [countForCode_eq, hl]
  unfold aggValue
  rw [hsum, hcount]
  by_cases he : payloads.filterMap (fun rows => (rowsForCode rows code).head?) = []
  · rw [if_pos he, if_neg (by simp [he])]
  · rw [if_neg he, if_pos (List.length_pos.mpr he)]

/-- Witness for C2: the spec's example; unit 08019 with values 0.10 and 0.20
over two of three fetched dates averages to 0.15 (divided by 2, not 3), unit
17001 present on one date only is divided by 1, and rows with a missing or
empty code or a non-numeric value contribute nothing. -/
theorem claim_C2_muniAggregation_witness :
    aggValue
        [[⟨some "08019", some (1 / 10)⟩],
         [⟨some "08019", some (2 / 10)⟩, ⟨some "17001", some 1⟩],
         [⟨none, some (1 / 2)⟩, ⟨some "", some (1 / 3)⟩, ⟨some "08019", none⟩]]
        "08019" = some (3 / 20) ∧
    aggValue
        [[⟨some "08019", some (1 / 10)⟩],
         [⟨some "08019", some (2 / 10)⟩, ⟨some "17001", some 1⟩],
         [⟨none, some (1 / 2)⟩, ⟨some "", some (1 / 3)⟩, ⟨some "08019", none⟩]]
        "17001" = some 1 := by
  constructor
  · rw [claim_C2_muniAggregation _ "08019" (by decide)]
    simp +decide only [rowsForCode, validRow, List.filterMap_cons, List.filterMap_nil,
      List.head?_cons, List.head?_nil, if_true, if_false, reduceIte]
    norm_num
  · rw [claim_C2_muniAggregation _ "17001" (by decide)]
    simp +decide only [rowsForCode, validRow, List.filterMap_cons, List.filterMap_nil,
      List.head?_cons, List.head?_nil, if_true, if_false, reduceIte]
    norm_num

/-! ## Claim theorems: C3 -/

/-- The parsed rasters of the dates that fetched with an ok status. -/
def bcnOks (fs : List BcnFetch) : List Georaster :=
  fs.filterMap
    (fun f =>
      match f with
      | .ok g => some g
      | _ => none)

theorem spainSurvivors_skip (fs1 fs2 : List SpainFetch) :
    spainSurvivors (fs1 ++ SpainFetch.failed :: fs2) = spainSurvivors (fs1 ++ fs2) := by
  unfold spainSurvivors
  rw [List.filterMap_append, List.filterMap_cons, List.filterMap_append]

theorem bcnCollect_netError (fs1 fs2 : List BcnFetch) :
    bcnCollect (fs1 ++ BcnFetch.netError :: fs2) = none := by
  induction fs1 with
  | nil => rfl
  | cons f rest ih =>
    cases f with
    | netError => rfl
    | httpError =>
      show bcnCollect (rest ++ BcnFetch.netError :: fs2) = none
      exact ih
    | ok g =>
      show (bcnCollect (rest ++ BcnFetch.netError :: fs2)).map _ = none
      rw [ih]
      rfl

theorem bcnCollect_skip (fs1 fs2 : List BcnFetch) :
    bcnCollect (fs1 ++ BcnFetch.httpError :: fs2) = bcnCollect (fs1 ++ fs2) := by
  induction fs1 with
  | nil => rfl
  | cons f rest ih =>
    cases f with
    | netError => rfl
    | httpError =>
      show bcnCollect (rest ++ BcnFetch.httpError :: fs2) = bcnCollect (rest ++ fs2)
      exact ih
    | ok g =>
      show (bcnCollect (rest ++ BcnFetch.httpError :: fs2)).map _ =
        (bcnCollect (rest ++ fs2)).map _
      rw [ih]

theorem bcnCollect_of_no_netError (fs : List BcnFetch)
    (h : BcnFetch.netError ∉ fs) : bcnCollect fs = some (bcnOks fs) := by
  induction fs with
  | nil => rfl
  | cons f rest ih =>
    have hrest : BcnFetch.netError ∉ rest := fun hr => h (List.mem_cons_of_mem _ hr)
    cases f with
    | netError => exact absurd (List.mem_cons_self _ _) h
    | httpError =>
      show bcnCollect rest = some (bcnOks (BcnFetch.httpError :: rest))
      rw [ih hrest]
      rfl
    | ok g =>
      show (bcnCollect rest).map _ = some (bcnOks (BcnFetch.ok g :: rest))
      rw [ih hrest]
      rfl

/-- C3 (amended): if every per-date fetch fails, both range loaders surface
the user-visible no-data/error outcome and build no layer; failed dates never
influence the outcome that the surviving dates produce — but the two paths
differ in what counts as a skippable failure: the Spain municipality path
(Promise.allSettled) skips both rejected fetches and non-2xx dates, while the
Barcelona raster path skips only non-2xx dates and aborts the whole range
with the error message on a network-level rejection (or raster parse
failure), even when other dates succeed. -/
theorem claim_C3_rangeFailurePolicy :
    (∀ fs : List SpainFetch, (∀ f ∈ fs, f = .failed) → spainOutcome fs = .noData) ∧
    (∀ fs1 fs2 : List SpainFetch,
      spainOutcome (fs1 ++ SpainFetch.failed :: fs2) = spainOutcome (fs1 ++ fs2)) ∧
    (∀ fs : List SpainFetch, hasValidRow (spainSurvivors fs) = true →
      spainOutcome fs = .layer (spainSurvivors fs)) ∧
    (∀ fs : List BcnFetch, (∀ f ∈ fs, ∀ g, f ≠ .ok g) →
      bcnOutcome fs = .errorMessage) ∧
    (∀ fs1 fs2 : List BcnFetch,
      bcnOutcome (fs1 ++ BcnFetch.httpError :: fs2) = bcnOutcome (fs1 ++ fs2)) ∧
    (∀ fs1 fs2 : List BcnFetch,
      bcnOutcome (fs1 ++ BcnFetch.netError :: fs2) = .errorMessage) ∧
    (∀ fs : List BcnFetch, BcnFetch.netError ∉ fs → bcnOks fs ≠ [] →
      bcnOutcome fs = .layer (bcnOks fs)) := by
  refine ⟨?_, ?_, ?_, ?_, ?_, ?_, ?_⟩
  · intro fs h
    have hs : spainSurvivors fs = [] := by
      induction fs with
      | nil => rfl
      | cons f rest ih =>
        have hf := h f (List.mem_cons_self f rest)
        subst hf
        show spainSurvivors (SpainFetch.failed :: rest) = []
        unfold spainSurvivors
        rw [List.filterMap_cons]
        exact ih (fun f hf => h f (List.mem_cons_of_mem _ hf))
    unfold spainOutcome
    rw [hs]
    rfl
  · intro fs1 fs2
    unfold spainOutcome
    rw [spainSurvivors_skip]
  · intro fs h
    unfold spainOutcome
    dsimp only
    rw [if_pos h]
  · intro fs h
    unfold bcnOutcome
    by_cases hn : BcnFetch.netError ∈ fs
    · obtain ⟨l1, l2, rfl⟩ := List.append_of_mem hn
      rw [bcnCollect_netError]
    · rw [bcnCollect_of_no_netError fs hn]
      have hoks : bcnOks fs = [] := by
        unfold bcnOks
        rw [List.filterMap_eq_nil_iff]
        intro f hf
        cases f with
        | netError => rfl
        | httpError => rfl
        | ok g => exact absurd rfl (h (BcnFetch.ok g) hf g)
      rw [hoks]
  · intro fs1 fs2
    unfold bcnOutcome
    rw [bcnCollect_skip]
  · intro fs1 fs2
    unfold bcnOutcome
    rw [bcnCollect_netError]
  · intro fs hn hne
    unfold bcnOutcome
    rw [bcnCollect_of_no_netError fs hn]
    cases hoks : bcnOks fs with
    | nil => exact absurd hoks hne
    | cons g rest => rfl

/-- Counterexample to C3 as stated: in a Barcelona range where the first
date's fetch rejects at the network level and the second date succeeds, the
claim says the failure is skipped and the layer is built from the surviving
date; the code's sequential loop throws out of the whole load instead, shows
the error message, and builds no layer. -/
theorem claim_C3_counterexample :
    BcnFetch.ok ⟨[[[some 1]]], some 1, some 1, none⟩ ∈
      [BcnFetch.netError, BcnFetch.ok ⟨[[[some 1]]], some 1, some 1, none⟩] ∧
    bcnOutcome [BcnFetch.netError,
      BcnFetch.ok ⟨[[[some 1]]], some 1, some 1, none⟩] = .errorMessage ∧
    ∀ gs : List Georaster,
      bcnOutcome [BcnFetch.netError,
        BcnFetch.ok ⟨[[[some 1]]], some 1, some 1, none⟩] ≠ .layer gs := by
  refine ⟨List.mem_cons_of_mem _ (List.mem_cons_self _ _), rfl, ?_⟩
  intro gs h
  exact BcnOutcome.noConfusion h

/-- Witness for C3 (amended): concrete ranges through both loaders,
hypotheses discharged by computation. -/
theorem claim_C3_rangeFailurePolicy_witness :
    spainOutcome [.failed, .failed] = .noData ∧
    spainOutcome [.failed, .ok [⟨some "08019", some 1⟩]] =
      .layer [[⟨some "08019", some 1⟩]] ∧
    bcnOutcome [.httpError, .ok ⟨[[[some 2]]], some 1, some 1, none⟩] =
      .layer [⟨[[[some 2]]], some 1, some 1, none⟩] ∧
    bcnOutcome [BcnFetch.httpError, BcnFetch.httpError] = .errorMessage := by
  refine ⟨claim_C3_rangeFailurePolicy.1 _ (by decide), ?_, ?_, ?_⟩
  · exact claim_C3_rangeFailurePolicy.2.2.1 _ (by decide)
  · exact claim_C3_rangeFailurePolicy.2.2.2.2.2.2 _ (by decide) (by decide)
  · refine claim_C3_rangeFailurePolicy.2.2.2.1 _ ?_
    intro f hf g
    rcases List.mem_cons.mp hf with rfl | hf2
    · simp
    · rcases List.mem_cons.mp hf2 with rfl | hf3
      · simp
      · exact absurd hf3 (List.not_mem_nil f)

/-! ## Claim theorems: C1 -/

/-- The values contributing to one output cell: the cells at (b, y, x) of the
grids that pass the dimension check, present and not equal to the sentinel
(the claim's contributing values; a grid failing the check contributes
nothing at any pixel). -/
def contributingValues (gs : List Georaster) (p : Georaster → Bool)
    (noData : Option ℚ) (b y x : ℕ) : List ℚ :=
  (gs.filter p).filterMap (fun r => contribOf noData (cellAt r b y x))

/-- The claim's description of one output pixel: the arithmetic mean of the
contributing values, or the sentinel (null when none is defined) when no
grid contributed. -/
def meanOfContributions (gs : List Georaster) (p : Georaster → Bool)
    (noData : Option ℚ) (b y x : ℕ) : Option ℚ :=
  if contributingValues gs p noData b y x = [] then noData
  else
    some ((contributingValues gs p noData b y x).sum /
      ((contributingValues gs p noData b y x).length : ℚ))

theorem sumAt_eq (gs : List Georaster) (p : Georaster → Bool)
    (noData : Option ℚ) (b y x : ℕ) :
    sumAt gs p noData b y x = (contributingValues gs p noData b y x).sum := by
  unfold sumAt contributingValues
  suffices h : ∀ (l : List Georaster) (acc : ℚ),
      l.foldl
          (fun acc r =>
            match contribOf noData (cellAt r b y x) with
            | some v => acc + v
            | none => acc) acc =
        acc + (l.filterMap (fun r => contribOf noData (cellAt r b y x))).sum by
    rw [h (gs.filter p) 0, zero_add]
  intro l
  induction l with
  | nil => intro acc; simp
  | cons r rest ih =>
    intro acc
    rw [List.foldl_cons, List.filterMap_cons]
    cases hc : contribOf noData (cellAt r b y x) with
    | none =>
      simp only [hc]
      exact ih acc
    | some v =>
      simp only [hc, List.sum_cons]
      rw [ih (acc + v)]
      ring

/-- Description of one output pixel under the 16-bit counter of the source:
the contributing values' sum divided by the wrapped contributor count, or the
sentinel (null when none is defined) when the wrapped count is zero — which
happens both for zero contributors and for any multiple of 2^16
contributors. -/
def wrappedMeanOfContributions (gs : List Georaster) (p : Georaster → Bool)
    (noData : Option ℚ) (b y x : ℕ) : Option ℚ :=
  if (contributingValues gs p noData b y x).length % 65536 = 0 then noData
  else
    some ((contributingValues gs p noData b y x).sum /
      (((contributingValues gs p noData b y x).length % 65536 : ℕ) : ℚ))

theorem countAt_eq (gs : List Georaster) (p : Georaster → Bool)
    (noData : Option ℚ) (b y x : ℕ) :
    countAt gs p noData b y x =
      (contributingValues gs p noData b y x).length % 65536 := by
  unfold countAt contributingValues
  suffices h : ∀ (l : List Georaster) (acc : ℕ), acc < 65536 →
      l.foldl
          (fun acc r =>
            match contribOf noData (cellAt r b y x) with
            | some _ => (acc + 1) % 65536
            | none => acc) acc =
        (acc + (l.filterMap (fun r => contribOf noData (cellAt r b y x))).length) %
          65536 by
    rw [h (gs.filter p) 0 (by norm_num), Nat.zero_add]
  intro l
  induction l with
  | nil =>
    intro acc hacc
    simp [Nat.mod_eq_of_lt hacc]
  | cons r rest ih =>
    intro acc hacc
    rw [List.foldl_cons, List.filterMap_cons]
    cases hc : contribOf noData (cellAt r b y x) with
    | none =>
      simp only [hc]
      exact ih acc hacc
    | some v =>
      simp only [hc, List.length_cons]
      rw [ih ((acc + 1) % 65536) (Nat.mod_lt _ (by norm_num)), Nat.mod_add_mod]
      omega

/-- The sum/count accumulation computes the wrapped mean of the contributing
values (the sentinel when the wrapped count is zero). -/
theorem averagedCell_eq (gs : List Georaster) (p : Georaster → Bool)
    (noData : Option ℚ) (b y x : ℕ) :
    averagedCell gs p noData b y x =
      wrappedMeanOfContributions gs p noData b y x := by
  unfold averagedCell wrappedMeanOfContributions
  rw [sumAt_eq, countAt_eq]
  by_cases he : (contributingValues gs p noData b y x).length % 65536 = 0
  · rw [if_pos he, if_neg (by omega)]
  · rw [if_neg he, if_pos (by omega)]

/-- Below 2^16 contributors the wrapped mean is the exact arithmetic mean. -/
theorem wrappedMean_eq_mean (gs : List Georaster) (p : Georaster → Bool)
    (noData : Option ℚ) (b y x : ℕ)
    (hlt : (contributingValues gs p noData b y x).length < 65536) :
    wrappedMeanOfContributions gs p noData b y x =
      meanOfContributions gs p noData b y x := by
  unfold wrappedMeanOfContributions meanOfContributions
  rw [Nat.mod_eq_of_lt hlt]
  by_cases he : contributingValues gs p noData b y x = []
  · rw [if_pos (List.length_eq_zero.mpr he), if_pos he]
  · rw [if_neg (fun h0 => he (List.length_eq_zero.mp h0)), if_neg he]

/-- C1 (amended): averageGeorasters returns null on an empty list or a first
grid with missing dimensions (no bands, an empty first band, or zero
effective height/width); otherwise the output grid carries the first grid's
width, height, band count and no-data sentinel, and every in-range pixel is
the contributing values' sum divided by the contributor count accumulated in
a 16-bit counter (wrapping modulo 2^16) — a value contributes only when
present and not equal to the sentinel, and a grid whose band-0 shape differs
from the first grid is skipped whole.  When the pixel's contributor count is
below 2^16 this is the exact arithmetic mean, with zero contributors yielding
the sentinel (or null when none is defined), never 0; at a multiple of 2^16
contributors the wrapped count is 0 and the pixel gets the sentinel instead
of the mean. -/
theorem claim_C1_averageGeorasters :
    (averageGeorasters [] = none) ∧
    (∀ (base : Georaster) (rest : List Georaster),
      base.values = [] → averageGeorasters (base :: rest) = none) ∧
    (∀ (base : Georaster) (rest : List Georaster)
        (vrest : List (List (List (Option ℚ)))),
      base.values = [] :: vrest → averageGeorasters (base :: rest) = none) ∧
    (∀ (base : Georaster) (rest : List Georaster) (out : Georaster)
        (firstBand : List (List (Option ℚ))) (row0 : List (Option ℚ)),
      base.values.head? = some firstBand → firstBand.head? = some row0 →
      averageGeorasters (base :: rest) = some out →
      out.width = base.width ∧ out.height = base.height ∧
        out.noDataValue = base.noDataValue ∧
        out.values.length = base.values.length ∧
        (∀ b y x : ℕ, b < base.values.length →
          y < jsOrDim base.height firstBand.length →
          x < jsOrDim base.width row0.length →
          rawCellAt out b y x =
            some (wrappedMeanOfContributions (base :: rest)
              (passesDimCheck base.values.length
                (jsOrDim base.height firstBand.length)
                (jsOrDim base.width row0.length))
              base.noDataValue b y x) ∧
          ((contributingValues (base :: rest)
              (passesDimCheck base.values.length
                (jsOrDim base.height firstBand.length)
                (jsOrDim base.width row0.length))
              base.noDataValue b y x).length < 65536 →
            rawCellAt out b y x =
              some (meanOfContributions (base :: rest)
                (passesDimCheck base.values.length
                  (jsOrDim base.height firstBand.length)
                  (jsOrDim base.width row0.length))
                base.noDataValue b y x)))) := by
  refine ⟨rfl, ?_, ?_, ?_⟩
  · intro base rest h
    simp [averageGeorasters, h]
  · intro base rest vrest h
    simp [averageGeorasters, h]
  · intro base rest out firstBand row0 h1 h2 heq
    obtain ⟨tl, hbv⟩ : ∃ tl, base.values = firstBand :: tl := by
      cases hb : base.values with
      | nil => rw [hb] at h1; exact absurd h1 (by simp)
      | cons fb tl2 =>
        rw [hb] at h1
        simp only [List.head?_cons, Option.some.injEq] at h1
        exact ⟨tl2, by rw [h1]⟩
    obtain ⟨rtl, hfb⟩ : ∃ rtl, firstBand = row0 :: rtl := by
      cases hb : firstBand with
      | nil => rw [hb] at h2; exact absurd h2 (by simp)
      | cons r0 rtl2 =>
        rw [hb] at h2
        simp only [List.head?_cons, Option.some.injEq] at h2
        exact ⟨rtl2, by rw [h2]⟩
    subst hfb
    unfold averageGeorasters at heq
    dsimp only at heq
    rw [hbv] at heq
    dsimp only at heq
    split at heq
    case isTrue => exact absurd heq (by simp)
    case isFalse hcond =>
      rw [Option.some.injEq] at heq
      subst heq
      rw [hbv]
      refine ⟨rfl, rfl, rfl, by simp, ?_⟩
      intro b y x hb hy hx
      constructor
      · unfold rawCellAt
        rw [List.getElem?_map, List.getElem?_range (by simpa using hb)]
        simp only [Option.map_some', Option.some_bind]
        rw [List.getElem?_map, List.getElem?_range (by simpa using hy)]
        simp only [Option.map_some', Option.some_bind]
        rw [List.getElem?_map, List.getElem?_range (by simpa using hx)]
        simp only [Option.map_some']
        rw [averagedCell_eq]
      · intro hlt
        unfold rawCellAt
        rw [List.getElem?_map, List.getElem?_range (by simpa using hb)]
        simp only [Option.map_some', Option.some_bind]
        rw [List.getElem?_map, List.getElem?_range (by simpa using hy)]
        simp only [Option.map_some', Option.some_bind]
        rw [List.getElem?_map, List.getElem?_range (by simpa using hx)]
        simp only [Option.map_some']
        rw [averagedCell_eq, wrappedMean_eq_mean _ _ _ _ _ _ hlt]

/-- Witness for C1: the spec's raster-averaging example with sentinel 9.
Grids [[1,2],[3,9]] and [[3,9],[5,6]] average to [[2,2],[4,6]]: cell (0,0)
averages 1 and 3, cell (0,1) drops the sentinel and keeps 2, cell (1,1) has
the single contributor 6; and a pixel with zero contributors (both grids at
the sentinel) yields the sentinel, never 0. -/
theorem claim_C1_averageGeorasters_witness :
    averageGeorasters
        [⟨[[[some 1, some 2], [some 3, some 9]]], some 2, some 2, some 9⟩,
         ⟨[[[some 3, some 9], [some 5, some 6]]], some 2, some 2, some 9⟩] =
      some ⟨(List.range 1).map (fun b => (List.range 2).map (fun y =>
          (List.range 2).map (fun x =>
            averagedCell
              [⟨[[[some 1, some 2], [some 3, some 9]]], some 2, some 2, some 9⟩,
               ⟨[[[some 3, some 9], [some 5, some 6]]], some 2, some 2, some 9⟩]
              (passesDimCheck 1 2 2) (some 9) b y x))),
        some 2, some 2, some 9⟩ ∧
    rawCellAt
        ⟨(List.range 1).map (fun b => (List.range 2).map (fun y =>
            (List.range 2).map (fun x =>
              averagedCell
                [⟨[[[some 1, some 2], [some 3, some 9]]], some 2, some 2, some 9⟩,
                 ⟨[[[some 3, some 9], [some 5, some 6]]], some 2, some 2, some 9⟩]
                (passesDimCheck 1 2 2) (some 9) b y x))),
          some 2, some 2, some 9⟩ 0 1 1 = some (some 6) ∧
    rawCellAt
        ⟨(List.range 1).map (fun b => (List.range 2).map (fun y =>
            (List.range 2).map (fun x =>
              averagedCell
                [⟨[[[some 1, some 2], [some 3, some 9]]], some 2, some 2, some 9⟩,
                 ⟨[[[some 3, some 9], [some 5, some 6]]], some 2, some 2, some 9⟩]
                (passesDimCheck 1 2 2) (some 9) b y x))),
          some 2, some 2, some 9⟩ 0 0 0 = some (some 2) ∧
    meanOfContributions
        [⟨[[[some 9]]], some 1, some 1, some 9⟩,
         ⟨[[[some 9]]], some 1, some 1, some 9⟩]
        (passesDimCheck 1 1 1) (some 9) 0 0 0 = some 9 := by
  have hmain := claim_C1_averageGeorasters.2.2.2
    ⟨[[[some 1, some 2], [some 3, some 9]]], some 2, some 2, some 9⟩
    [⟨[[[some 3, some 9], [some 5, some 6]]], some 2, some 2, some 9⟩]
    ⟨(List.range 1).map (fun b => (List.range 2).map (fun y =>
        (List.range 2).map (fun x =>
          averagedCell
            [⟨[[[some 1, some 2], [some 3, some 9]]], some 2, some 2, some 9⟩,
             ⟨[[[some 3, some 9], [some 5, some 6]]], some 2, some 2, some 9⟩]
            (passesDimCheck 1 2 2) (some 9) b y x))),
      some 2, some 2, some 9⟩
    [[some 1, some 2], [some 3, some 9]] [some 1, some 2] rfl rfl rfl
  have hcell11 : rawCellAt
      ⟨(List.range 1).map (fun b => (List.range 2).map (fun y =>
          (List.range 2).map (fun x =>
            averagedCell
              [⟨[[[some 1, some 2], [some 3, some 9]]], some 2, some 2, some 9⟩,
               ⟨[[[some 3, some 9], [some 5, some 6]]], some 2, some 2, some 9⟩]
              (passesDimCheck 1 2 2) (some 9) b y x))),
        some 2, some 2, some 9⟩ 0 1 1 =
      some (meanOfContributions
        [⟨[[[some 1, some 2], [some 3, some 9]]], some 2, some 2, some 9⟩,
         ⟨[[[some 3, some 9], [some 5, some 6]]], some 2, some 2, some 9⟩]
        (passesDimCheck 1 2 2) (some 9) 0 1 1) :=
    (hmain.2.2.2.2 0 1 1 (by decide) (by decide) (by decide)).2 (by decide)
  have hcell00 : rawCellAt
      ⟨(List.range 1).map (fun b => (List.range 2).map (fun y =>
          (List.range 2).map (fun x =>
            averagedCell
              [⟨[[[some 1, some 2], [some 3, some 9]]], some 2, some 2, some 9⟩,
               ⟨[[[some 3, some 9], [some 5, some 6]]], some 2, some 2, some 9⟩]
              (passesDimCheck 1 2 2) (some 9) b y x))),
        some 2, some 2, some 9⟩ 0 0 0 =
      some (meanOfContributions
        [⟨[[[some 1, some 2], [some 3, some 9]]], some 2, some 2, some 9⟩,
         ⟨[[[some 3, some 9], [some 5, some 6]]], some 2, some 2, some 9⟩]
        (passesDimCheck 1 2 2) (some 9) 0 0 0) :=
    (hmain.2.2.2.2 0 0 0 (by decide) (by decide) (by decide)).2 (by decide)
  have hcv11 : contributingValues
      [⟨[[[some 1, some 2], [some 3, some 9]]], some 2, some 2, some 9⟩,
       ⟨[[[some 3, some 9], [some 5, some 6]]], some 2, some 2, some 9⟩]
      (passesDimCheck 1 2 2) (some 9) 0 1 1 = [6] := by decide
  have hcv00 : contributingValues
      [⟨[[[some 1, some 2], [some 3, some 9]]], some 2, some 2, some 9⟩,
       ⟨[[[some 3, some 9], [some 5, some 6]]], some 2, some 2, some 9⟩]
      (passesDimCheck 1 2 2) (some 9) 0 0 0 = [1, 3] := by decide
  refine ⟨rfl, ?_, ?_, ?_⟩
  · rw [hcell11]
    unfold meanOfContributions
    rw [hcv11, if_neg (by simp)]
    norm_num
  · rw [hcell00]
    unfold meanOfContributions
    rw [hcv00, if_neg (by simp)]
    norm_num
  · unfold meanOfContributions
    rw [show contributingValues
        [⟨[[[some 9]]], some 1, some 1, some 9⟩,
         ⟨[[[some 9]]], some 1, some 1, some 9⟩]
        (passesDimCheck 1 1 1) (some 9) 0 0 0 = [] from by decide]
    rfl

/-- A one-pixel grid holding 7 with no declared sentinel, used to exhibit
the 16-bit counter wrap. -/
def c1Grid : Georaster := ⟨[[[some 7]]], some 1, some 1, none⟩

theorem c1ReplicateCv (n : ℕ) :
    contributingValues (List.replicate n c1Grid)
      (passesDimCheck 1 1 1) none 0 0 0 = List.replicate n (7 : ℚ) := by
  have hc : (fun r => contribOf none (cellAt r 0 0 0)) c1Grid = some 7 := rfl
  have hp : passesDimCheck 1 1 1 c1Grid = true := rfl
  induction n with
  | zero => rfl
  | succ k ih =>
    unfold contributingValues at ih ⊢
    rw [List.replicate_succ, List.filter_cons, if_pos hp]
    simp only [List.filterMap_cons, hc]
    rw [ih, List.replicate_succ]

/-- Counterexample for the unbounded reading of C1: 2^16 identical one-pixel
grids, each passing the dimension check and contributing the value 7 at pixel
(0, 0, 0), so the pixel has 65536 contributors and the claimed mean is 7 —
yet the source's Uint16Array counter wraps to 0 and the output pixel is the
sentinel (null here), not the mean. -/
theorem claim_C1_counterexample :
    (∀ r ∈ List.replicate 65536 c1Grid,
      passesDimCheck 1 1 1 r = true ∧ contribOf none (cellAt r 0 0 0) = some 7) ∧
    (contributingValues (List.replicate 65536 c1Grid)
        (passesDimCheck 1 1 1) none 0 0 0).length = 65536 ∧
    meanOfContributions (List.replicate 65536 c1Grid)
        (passesDimCheck 1 1 1) none 0 0 0 = some 7 ∧
    (averageGeorasters (List.replicate 65536 c1Grid)).map
        (fun out => rawCellAt out 0 0 0) = some (some none) := by
  have hne : List.replicate 65536 (7 : ℚ) ≠ [] := by
    intro h0
    have h2 := congrArg List.length h0
    rw [List.length_replicate, List.length_nil] at h2
    exact absurd h2 (by norm_num)
  refine ⟨?_, ?_, ?_, ?_⟩
  · intro r hr
    rw [List.eq_of_mem_replicate hr]
    exact ⟨rfl, rfl⟩
  · rw [c1ReplicateCv 65536, List.length_replicate]
  · unfold meanOfContributions
    rw [c1ReplicateCv 65536, if_neg hne, List.sum_replicate,
      List.length_replicate, nsmul_eq_mul]
    norm_num
  · have h1 : averageGeorasters (List.replicate 65536 c1Grid) =
        some ⟨(List.range 1).map (fun b => (List.range 1).map (fun y =>
          (List.range 1).map (fun x =>
            averagedCell (List.replicate 65536 c1Grid) (passesDimCheck 1 1 1)
              none b y x))), some 1, some 1, none⟩ := rfl
    have h2 : rawCellAt
        ⟨(List.range 1).map (fun b => (List.range 1).map (fun y =>
          (List.range 1).map (fun x =>
            averagedCell (List.replicate 65536 c1Grid) (passesDimCheck 1 1 1)
              none b y x))), some 1, some 1, none⟩ 0 0 0 =
        some (averagedCell (List.replicate 65536 c1Grid) (passesDimCheck 1 1 1)
          none 0 0 0) := by
      unfold rawCellAt
      rw [List.getElem?_map, List.getElem?_range (by norm_num)]
      simp only [Option.map_some', Option.some_bind]
      rw [List.getElem?_map, List.getElem?_range (by norm_num)]
      simp only [Option.map_some', Option.some_bind]
      rw [List.getElem?_map, List.getElem?_range (by norm_num)]
      simp only [Option.map_some']
    rw [h1, Option.map_some', h2, averagedCell_eq]
    unfold wrappedMeanOfContributions
    rw [c1ReplicateCv 65536, List.sum_replicate, List.length_replicate,
      if_pos (by norm_num : (65536 : ℕ) % 65536 = 0)]

/-! ## Claim theorems: C4 -/

/-- Modelled from the spec's words (observation filter contract): a point
matches when its category field, lowercased, contains one of the species
key's alias substrings AND its date parses to a valid date whose calendar
day falls within [startDate, endDate] inclusive at calendar-day granularity
(time-of-day ignored).  This is the claim's reading, to be compared with the
source's `featureMatches`. -/
def specObservationMatches (speciesKey : String) (startD endD : CivilDate)
    (props : ObsProps) : Bool :=
  (match firstTruthy props (datePropertyCandidates ++ ["date", "timestamp"]) with
   | none => false
   | some s =>
     match parseJsDateTime s with
     | none => false
     | some (c, _) => decide (dateKey startD ≤ dateKey c ∧ dateKey c ≤ dateKey endD)) &&
    matchesSpecies ((speciesAliases speciesKey).map lowerStr) props

theorem firstTruthy_ne_empty (props : ObsProps) (keys : List String) (v : String)
    (h : firstTruthy props keys = some v) : v ≠ "" := by
  induction keys with
  | nil => exact absurd h (by simp [firstTruthy])
  | cons k rest ih =>
    unfold firstTruthy at h
    cases hp : getProp props k with
    | none =>
      rw [hp] at h
      exact ih h
    | some w =>
      rw [hp] at h
      dsimp only at h
      by_cases hw : w = ""
      · rw [if_pos hw] at h
        exact ih h
      · rw [if_neg hw] at h
        simp only [Option.some.injEq] at h
        subst h
        exact hw

theorem isWithinRange_firstTruthy_iff (startD endD : CivilDate) (props : ObsProps)
    (keys : List String) :
    isWithinRange startD endD (firstTruthy props keys) = true ↔
      ∃ (s : String) (c : CivilDate) (ms : ℕ),
        firstTruthy props keys = some s ∧ parseJsDateTime s = some (c, ms) ∧
        tsOf startD 0 ≤ tsOf c ms ∧ tsOf c ms ≤ tsOf endD 0 := by
  cases hft : firstTruthy props keys with
  | none =>
    simp only [isWithinRange, Bool.false_eq_true, false_iff]
    rintro ⟨s, c, ms, hs, _⟩
    exact absurd hs (by simp)
  | some s =>
    have hs := firstTruthy_ne_empty props keys s hft
    unfold isWithinRange
    dsimp only
    rw [if_neg hs]
    cases hp : parseJsDateTime s with
    | none =>
      simp only [Bool.false_eq_true, false_iff]
      rintro ⟨s2, c, ms, hs2, hp2, _⟩
      simp only [Option.some.injEq] at hs2
      subst hs2
      rw [hp] at hp2
      exact absurd hp2 (by simp)
    | some p =>
      obtain ⟨c, ms⟩ := p
      simp only [decide_eq_true_eq]
      constructor
      · rintro ⟨hle1, hle2⟩
        exact ⟨s, c, ms, rfl, hp, hle1, hle2⟩
      · rintro ⟨s2, c2, ms2, hs2, hp2, hle1, hle2⟩
        simp only [Option.some.injEq] at hs2
        subst hs2
        rw [hp] at hp2
        simp only [Option.some.injEq, Prod.mk.injEq] at hp2
        obtain ⟨rfl, rfl⟩ := hp2
        exact ⟨hle1, hle2⟩

theorem matchesSpecies_iff (terms : List String) (props : ObsProps) :
    matchesSpecies terms props = true ↔
      ∃ v : String, firstTruthy props speciesPropertyCandidates = some v ∧
        ∃ t ∈ terms, t.data <:+: (lowerStr v).data := by
  unfold matchesSpecies
  cases hft : firstTruthy props speciesPropertyCandidates with
  | none =>
    simp only [Bool.false_eq_true, false_iff]
    rintro ⟨v, hv, _⟩
    exact absurd hv (by simp)
  | some v =>
    rw [List.any_eq_true]
    constructor
    · rintro ⟨t, ht, hinf⟩
      exact ⟨v, rfl, t, ht, of_decide_eq_true hinf⟩
    · rintro ⟨v2, hv2, t, ht, hinf⟩
      simp only [Option.some.injEq] at hv2
      subst hv2
      exact ⟨t, ht, decide_eq_true hinf⟩

/-- C4 (amended): the filtered result contains exactly those features whose
resolved category value, lowercased, contains one of the species key's
lowercased alias substrings (an unknown key acting as its own single alias)
AND whose resolved date value parses to a valid date whose timestamp lies
between the UTC midnights of startDate and endDate inclusive — so date-only
feature dates behave at calendar-day granularity, but a feature carrying a
time of day after midnight on the end date is excluded (the boundaries, not
the feature's date, are normalized to day granularity).  Features with an
unparsable or missing date or with no category value are excluded. -/
theorem claim_C4_observationFilter (features : List ObsProps)
    (speciesKey : String) (startD endD : CivilDate) (f : ObsProps) :
    f ∈ filterObservations features speciesKey startD endD ↔
      f ∈ features ∧
        (∃ (s : String) (c : CivilDate) (ms : ℕ),
          firstTruthy f (datePropertyCandidates ++ ["date", "timestamp"]) = some s ∧
          parseJsDateTime s = some (c, ms) ∧
          tsOf startD 0 ≤ tsOf c ms ∧ tsOf c ms ≤ tsOf endD 0) ∧
        (∃ v : String, firstTruthy f speciesPropertyCandidates = some v ∧
          ∃ t ∈ (speciesAliases speciesKey).map lowerStr,
            t.data <:+: (lowerStr v).data) := by
  unfold filterObservations
  rw [List.mem_filter]
  unfold featureMatches
  rw [Bool.and_eq_true, isWithinRange_firstTruthy_iff, matchesSpecies_iff]

/-- Counterexample to C4 as stated: a feature whose category matches and
whose date 2024-06-30T12:00:00Z falls on the last calendar day of the range
2024-06-01..2024-06-30 is excluded by the code (its timestamp exceeds the
end boundary's midnight), although the claim's calendar-day-granularity
reading includes it. -/
theorem claim_C4_counterexample :
    filterObservations
        [[("species", "Aedes albopictus"),
          ("event_date", "2024-06-30T12:00:00Z")]]
        "ae-albopictus" ⟨2024, 6, 1⟩ ⟨2024, 6, 30⟩ = [] ∧
    specObservationMatches "ae-albopictus" ⟨2024, 6, 1⟩ ⟨2024, 6, 30⟩
      [("species", "Aedes albopictus"),
       ("event_date", "2024-06-30T12:00:00Z")] = true := by
  exact ⟨by decide, by decide⟩

/-- Witness for C4 (amended): the spec's positive example — a point dated
2024-06-15 with category "Aedes albopictus" matches ae-albopictus for June
2024 and is excluded for July 2024; a point with an unparsable date is
excluded. -/
theorem claim_C4_observationFilter_witness :
    ([("species", "Aedes albopictus"), ("event_date", "2024-06-15")] : ObsProps) ∈
      filterObservations
        [[("species", "Aedes albopictus"), ("event_date", "2024-06-15")]]
        "ae-albopictus" ⟨2024, 6, 1⟩ ⟨2024, 6, 30⟩ ∧
    filterObservations
        [[("species", "Aedes albopictus"), ("event_date", "2024-06-15")]]
        "ae-albopictus" ⟨2024, 7, 1⟩ ⟨2024, 7, 31⟩ = [] ∧
    filterObservations
        [[("species", "Aedes albopictus"), ("event_date", "not a date")]]
        "ae-albopictus" ⟨2024, 6, 1⟩ ⟨2024, 6, 30⟩ = [] := by
  refine ⟨?_, by decide, by decide⟩
  exact (claim_C4_observationFilter _ "ae-albopictus" ⟨2024, 6, 1⟩ ⟨2024, 6, 30⟩ _).mpr
    ⟨by decide,
     ⟨"2024-06-15", ⟨2024, 6, 15⟩, 0, by decide, by decide, by decide, by decide⟩,
     ⟨"Aedes albopictus", by decide, "aedes albopictus", by decide, by decide⟩⟩

end VectorRisk
